import Mathlib

/-!
Verification of the Guideline Retrieval & Ranking Engine of the tb-mentor-api
repository (the `tb-rag-query` endpoint in `src/api/tb-mentor.js`).

The JavaScript source is shallowly embedded below.  Conventions used
throughout the embedding:

* JavaScript string fields that may be `undefined`/`null` are modelled as
  `String` with `""` standing for an absent (falsy) value, matching the
  pervasive `(x || "")` coercions in the source.
* JavaScript number arithmetic on similarity scores is modelled with exact
  rationals (`ℚ`); the embedding-vector `normalize` function, whose claim is
  about the Euclidean norm, is modelled over the reals (`ℝ`).
* Regular-expression tests in the source are alternations of literal
  substrings (plus two small patterns handled explicitly); they are modelled
  by substring containment over lower-cased text, with the same case
  handling as the source.
* The per-query retrieval log and `console` output are observability only
  and are not modelled; no claim refers to them.
-/

namespace TbRag

/-! ## Generic string helpers (JS `String.prototype.includes`, etc.) -/

/-- Model of testing whether a character list starts with a pattern. -/
def startsWithChars : List Char → List Char → Bool
  | [], _ => true
  | _ :: _, [] => false
  | p :: ps, c :: cs => p == c && startsWithChars ps cs

/-- Model of substring containment on character lists. -/
def containsChars (pat : List Char) : List Char → Bool
  | [] => pat.isEmpty
  | c :: cs => startsWithChars pat (c :: cs) || containsChars pat cs

/-- JS `s.includes(pat)` (for the non-empty literal patterns used by the
source). -/
def strIncludes (s pat : String) : Bool :=
  containsChars pat.data s.data

/-- JS `s.startsWith(pat)`. -/
def strStartsWith (s pat : String) : Bool :=
  startsWithChars pat.data s.data

/-- JS `s.endsWith(pat)` (used to model the `columnz$` regex alternative). -/
def strEndsWith (s pat : String) : Bool :=
  startsWithChars pat.data.reverse s.data.reverse

/-- JS `s.toLowerCase()` character by character (the corpus text is ASCII).
Implemented over the character list so that concrete instances reduce in the
kernel. -/
def strToLower (s : String) : String :=
  String.mk (s.data.map Char.toLower)

/-- JS `s.trim()`: strip leading and trailing whitespace. -/
def jsTrim (s : String) : String :=
  String.mk (((s.data.dropWhile Char.isWhitespace).reverse.dropWhile
    Char.isWhitespace).reverse)

/-- JS `s.split("|")`. -/
def splitPipeChars : List Char → List (List Char)
  | [] => [[]]
  | c :: rest =>
      if c = '|' then [] :: splitPipeChars rest
      else
        match splitPipeChars rest with
        | [] => [[c]]
        | g :: gs => (c :: g) :: gs

/-- JS `s.split("|")`. -/
def splitPipe (s : String) : List String :=
  (splitPipeChars s.data).map String.mk

/-! ## `normalize` (src/api/tb-mentor.js lines 368-374)

```js
function normalize(vec) {
  let norm = 0;
  for (const v of vec) norm += v * v;
  norm = Math.sqrt(norm);
  if (!norm || !Number.isFinite(norm)) return vec.map(() => 0);
  return vec.map((v) => v / norm);
}
```

Modelled over the reals: in exact real arithmetic the computed norm is
always finite and is falsy exactly when it equals zero, so the JS guard
`!norm || !Number.isFinite(norm)` reduces to `norm = 0`; the "non-finite"
branch of the guard is a floating-point artifact absorbed by the same
degenerate case. -/

/-- Sum of squares of a vector, `let norm = 0; for (const v of vec) norm += v * v`. -/
def sumSquares (vec : List ℝ) : ℝ :=
  (vec.map (fun v => v * v)).sum

/-- The source's `normalize`: divide by the Euclidean norm, or zero out the
vector when the norm is degenerate. -/
noncomputable def normalize (vec : List ℝ) : List ℝ :=
  let norm := Real.sqrt (sumSquares vec)
  if norm = 0 then vec.map (fun _ => 0) else vec.map (fun v => v / norm)

/-! ## Corpus data model (§3 of the spec; `chunks.jsonl` records)

A chunk record as the retrieval module reads it.  All fields the module
touches are listed; `""` models a missing/falsy field, matching the
source's `(c.field || "")` accesses. -/

structure Chunk where
  chunk_id : String := ""
  doc_id : String := ""
  guideline_title : String := ""
  year : String := ""
  section_path : String := ""
  scope : String := ""
  content_type : String := ""
  text : String := ""
  caption : String := ""
  attachment_id : String := ""
  attachment_path : String := ""
  table_subtype : String := ""
deriving Repr, DecidableEq, Inhabited

/-- `chunks[i] || {}`: out-of-range access yields the all-absent record. -/
def chunkAt (chunks : List Chunk) (i : Nat) : Chunk :=
  chunks.getD i {}

/-- A transient scored candidate (index into the corpus plus mutable score).
Scores use exact rational arithmetic in place of JS float arithmetic. -/
structure Entry where
  index : Nat
  score : ℚ
deriving Repr, DecidableEq

/-- `embeddings[idx]` (defensive: out of range gives the empty vector). -/
def embAt (embeddings : List (List ℚ)) (i : Nat) : List ℚ :=
  embeddings.getD i []

/-- `cosineSim` (lines 457-464): dot product over the shared prefix length. -/
def cosineSim (a b : List ℚ) : ℚ :=
  (List.zipWith (fun x y => x * y) a b).sum

/-! ## Intent classifier (`inferIntentFlags`, lines 620-915) -/

/-- `const has = (words) => words.some((w) => q.includes(w));` -/
def jsHasAny (q : String) (words : List String) : Bool :=
  words.any (fun w => strIncludes q w)

/-- JS `Array.from(new Set(l))`: deduplicate keeping first occurrences. -/
def dedupKeepFirstAux : List String → List String → List String
  | [], _ => []
  | x :: xs, seen =>
      if seen.contains x then dedupKeepFirstAux xs seen
      else x :: dedupKeepFirstAux xs (x :: seen)

/-- JS `Array.from(new Set(l))`. -/
def dedupKeepFirst (l : List String) : List String :=
  dedupKeepFirstAux l []

/-- `inferIntentFlags(question)`: lexical keyword groups, each emitting one
flag when any phrase is a substring of the lower-cased question. -/
def inferIntentFlags (question : String) : List String :=
  let q := (strToLower question)
  if q = "" then []
  else
    dedupKeepFirst (
      (if jsHasAny q ["screening", "systematic screening", "triage", "ai-assisted",
          "ai assisted", "cxr screening", "screen for tb"] then ["screening"] else []) ++
      (if jsHasAny q ["diagnos", "algorithm", "cxr", "x-ray", "xray", "radiograph",
          "xpert", "ultra", "naat", "truenat", "lamp", "wrd", "wrds", "lpa", "smear",
          "culture", "dst", "drug susceptibility"] then ["diagnostic_workup"] else []) ++
      (if jsHasAny q ["tpt", "preventive treatment", "tb preventive treatment",
          "tb infection", "latent tb", "ltbi", "isoniazid preventive",
          "inh preventive"] then ["prevention_and_ltbi"] else []) ++
      (if jsHasAny q ["infection prevention", "ipc", "airborne infection", "ventilation",
          "uvgi", "n95", "respirator", "masking", "administrative controls",
          "environmental controls"] then ["infection_prevention_and_control"] else []) ++
      (if jsHasAny q ["start treatment", "starting treatment", "initial regimen",
          "which regimen", "what regimen", "choose regimen", "choice of regimen",
          "regimen choice"] then ["regimen_selection"] else []) ++
      (if jsHasAny q ["change regimen", "switch regimen", "modify regimen",
          "regimen modification", "adjust regimen", "add drug", "add a drug",
          "remove drug", "stop drug", "substitute", "substitution"]
        then ["regimen_modification"] else []) ++
      (if jsHasAny q ["toxicity", "adverse event", "side effect", "peripheral neuropathy",
          "neuropathy", "optic neuritis", "myelosuppression", "anaemia", "anemia",
          "thrombocytopenia", "hepatotoxicity", "liver toxicity", "vomiting", "nausea",
          "abdominal pain", "hyperpigmentation", "qt prolongation", "qt-prolonging",
          "cardiac toxicity"] then ["toxicity_management"] else []) ++
      (if jsHasAny q ["monitoring", "follow-up", "follow up", "schedule", "how often",
          "how frequently", "baseline tests", "baseline investigations",
          "routine monitoring", "post-treatment monitoring"]
        then ["monitoring_schedule"] else []) ++
      (if jsHasAny q ["treatment failure", "failed treatment", "failure of treatment",
          "culture reversion", "remains culture-positive", "remains culture positive",
          "persistent positive", "recurrent tb", "relapse"]
        then ["treatment_failure_or_reversion"] else []) ++
      (if jsHasAny q ["pregnant", "pregnancy", "breastfeeding", "lactating", "postpartum",
          "child", "children", "paediatric", "pediatric", "adolescent", "infant",
          "neonate"] then ["special_populations"] else []) ++
      (if jsHasAny q ["mdr-tb", "mdr tb", "xdr-tb", "xdr tb", "pre-xdr", "pre xdr",
          "rr-tb", "rr tb", "rifampicin-resistant", "rifampin-resistant",
          "drug-resistant tb", "drug resistant tb", "fluoroquinolone-resistant",
          "fluoroquinolone resistance"] then ["drug_resistance"] else []) ++
      (if jsHasAny q ["tpt", "tb preventive treatment", "tb preventive therapy",
          "preventive treatment", "preventive therapy", "ipt",
          "isoniazid preventive therapy", "3hp", "1hp", "3hr", "4r",
          "latent tb infection treatment", "ltbi treatment", "tb infection treatment",
          "tb infection therapy"] then ["tpt"] else []) ++
      (if jsHasAny q ["levofloxacin preventive", "levofloxacin prophylaxis", "6lfx",
          "6 months of levofloxacin", "mdr-tb contact", "mdr tb contact",
          "rr-tb contact", "rr tb contact", "contact of mdr-tb",
          "household contact of mdr-tb"] then ["dr_tpt", "tpt"] else []) ++
      (if jsHasAny q ["hiv", "plhiv", "cd4", "viral load", "diabetes", "diabetic",
          "renal failure", "kidney disease", "ckd", "cirrhosis", "liver disease",
          "alcohol use", "harmful use", "substance use", "drug use", "depression",
          "anxiety", "mental health", "hepatitis", "hbv", "hcv"]
        then ["comorbidities"] else []))

/-! ## Scope resolver (`keywordScore`, `inferScopeFromQuestion`, lines 496-618) -/

/-- `keywordScore(text, keywords)`: number of keywords contained in the text. -/
def keywordScore (text : String) (keywords : List String) : Nat :=
  (keywords.filter (fun kw => strIncludes text kw)).length

/-- The topic-scope candidates derived from intent flags (population and
comorbidity flags intentionally yield no candidate). -/
def topicCandidates (flags : List String) : List String :=
  (if flags.contains "prevention_and_ltbi" ||
      flags.contains "infection_prevention_and_control"
    then ["prevention"] else []) ++
  (if flags.contains "screening" then ["screening"] else []) ++
  (if flags.contains "diagnostic_workup" then ["diagnosis"] else []) ++
  (if flags.contains "regimen_selection" || flags.contains "regimen_modification" ||
      flags.contains "toxicity_management" || flags.contains "monitoring_schedule" ||
      flags.contains "treatment_failure_or_reversion"
    then ["treatment"] else [])

/-- `const topicPriority = ["treatment", "diagnosis", "prevention", "screening"];` -/
def topicPriority : List String :=
  ["treatment", "diagnosis", "prevention", "screening"]

/-- `inferScopeFromQuestion(question, intentFlags)` (lines 504-618): flag-based
candidates resolved through the fixed priority order, with the keyword-density
fallback when no flag yields a candidate. -/
def inferScopeFromQuestion (question : String) (intentFlags : List String) :
    Option String :=
  let q := (strToLower question)
  match topicPriority.find? (fun t => (topicCandidates intentFlags).contains t) with
  | some t => some t
  | none =>
    if q = "" then none
    else
      let preventionScore := keywordScore q ["prevention", "tb infection", "latent tb",
        "tpt", "preventive treatment", "contact management", "household contacts"]
      let screeningScore := keywordScore q ["screening", "systematic screening",
        "triage", "ai-assisted", "cxr screening", "screen for tb"]
      let diagnosisScore := keywordScore q ["diagnos", "algorithm", "cxr", "x-ray",
        "radiograph", "xpert", "naat", "truenat", "lamp", "wrd", "wrds", "lpa",
        "smear", "ultra"]
      let treatmentScore := keywordScore q ["treatment", "regimen", "therapy",
        "dosing", "dose", "4-month", "6-month", "bpal", "bdq", "pretomanid",
        "linezolid", "dr-tb", "drug-resistant"]
      if preventionScore ≥ 2 || strIncludes q "module 1" then some "prevention"
      else if screeningScore ≥ 2 || (decide (screeningScore ≠ 0) && strIncludes q "module 2")
        then some "screening"
      else if diagnosisScore ≥ 2 || (decide (diagnosisScore ≠ 0) && strIncludes q "module 3")
        then some "diagnosis"
      else if treatmentScore ≥ 2 || strIncludes q "module 4" then some "treatment"
      else none

/-! ## Drug-susceptible classification and the scope filter (lines 931-1056) -/

/-- The literal drug-susceptible signal phrases. -/
def dsSignals : List String :=
  ["drug - susceptible", "drug-susceptible", "drug susceptible", "ds-tb", "ds tb"]

/-- `isDrugSusceptibleChunk(chunk)` (lines 931-963). -/
def isDrugSusceptibleChunk (c : Chunk) : Bool :=
  let doc := (strToLower c.doc_id)
  let sectionPath := (strToLower c.section_path)
  let chunkScope := (strToLower c.scope)
  let txt := (strToLower c.text)
  let hasSignal := fun (s : String) => dsSignals.any (fun sig => strIncludes s sig)
  hasSignal chunkScope || hasSignal sectionPath || hasSignal txt ||
    (strIncludes doc "module4" && strIncludes doc "treat" &&
      strIncludes sectionPath "chapter 1")

/-- The per-chunk scope match of `filterIndicesByScope` (lines 971-1055):
an explicit chunk scope tag is authoritative; otherwise keyword patterns over
the document id and section path decide. -/
def chunkMatchesScope (c : Chunk) (s : String) : Bool :=
  let docId := (strToLower c.doc_id)
  let sectionPath := (strToLower c.section_path)
  let chunkScope := (strToLower c.scope)
  if chunkScope ≠ "" then chunkScope == s
  else if s == "prevention" then
    strIncludes sectionPath "prevention" || strIncludes sectionPath "tb infection" ||
    strIncludes sectionPath "tpt" || strIncludes sectionPath "preventive treatment" ||
    strIncludes sectionPath "contact management" || strIncludes sectionPath "latent tb" ||
    strIncludes docId "module1"
  else if s == "screening" then
    strIncludes sectionPath "screening" || strIncludes sectionPath "systematic screening" ||
    strIncludes sectionPath "triage" || strIncludes sectionPath "ai-assisted" ||
    strIncludes sectionPath "cxr screening" || strIncludes docId "module2"
  else if s == "diagnosis" then
    strIncludes docId "diag" || strIncludes docId "module3" ||
    strIncludes sectionPath "diagnos" || strIncludes sectionPath "xpert" ||
    strIncludes sectionPath "cxr" || strIncludes sectionPath "smear" ||
    strIncludes sectionPath "naat"
  else if s == "treatment" then
    strIncludes docId "treat" || strIncludes docId "module4" ||
    strIncludes sectionPath "treatment" || strIncludes sectionPath "regimen" ||
    strIncludes sectionPath "drug-resistant tb" || strIncludes sectionPath "dr-tb" ||
    strIncludes sectionPath "mdr-tb" || strIncludes sectionPath "rifampicin-resistant"
  else if s == "pediatrics" then
    strIncludes docId "pediatric" || strIncludes docId "child" ||
    strIncludes docId "module5" || strIncludes sectionPath "child" ||
    strIncludes sectionPath "children" || strIncludes sectionPath "adolescent" ||
    strIncludes sectionPath "paediatric" || strIncludes sectionPath "pediatric"
  else if s == "comorbidities" then
    strIncludes docId "module6" || strIncludes sectionPath "hiv" ||
    strIncludes sectionPath "diabetes" || strIncludes sectionPath "comorbid" ||
    strIncludes sectionPath "substance use" || strIncludes sectionPath "alcohol use" ||
    strIncludes sectionPath "mental health" || strIncludes sectionPath "hepatitis" ||
    strIncludes sectionPath "hcv"
  else true

/-- `filterIndicesByScope(indices, chunks, scope)` (lines 966-1056): `null`
or empty scope returns the input unchanged. -/
def filterIndicesByScope (indices : List Nat) (chunks : List Chunk)
    (scope : Option String) : List Nat :=
  match scope with
  | none => indices
  | some sc =>
      if sc = "" then indices
      else indices.filter (fun i => chunkMatchesScope (chunkAt chunks i) (strToLower sc))

/-! ## Section keys (`extractSectionKeys`, lines 1058-1074)

The numeric-heading regex `/\b\d+(?:\.\d+)*\b/g` is modelled by an explicit
scanner over the character list with JS word-boundary semantics
(word characters are ASCII alphanumerics and underscore). -/

/-- JS `\w`: ASCII letter, digit or underscore. -/
def isWordChar (c : Char) : Bool :=
  c.isAlphanum || c == '_'

/-- Maximal digit prefix of a character list, with the remainder. -/
def takeDigitsRun : List Char → List Char × List Char
  | [] => ([], [])
  | c :: rest =>
      if c.isDigit then
        let p := takeDigitsRun rest
        (c :: p.1, p.2)
      else ([], c :: rest)

/-- Candidate match ends for the greedy group `(?:\.\d+)*`, shortest first;
the fuel argument bounds the recursion by the remaining length. -/
def chainCandidates : Nat → List Char → List Char → List (List Char × List Char)
  | 0, tok, rest => [(tok, rest)]
  | fuel + 1, tok, rest =>
      match rest with
      | '.' :: r2 =>
          let p := takeDigitsRun r2
          if p.1.isEmpty then [(tok, rest)]
          else (tok, rest) :: chainCandidates fuel (tok ++ '.' :: p.1) p.2
      | _ => [(tok, rest)]

/-- The trailing `\b`: the next character must not be a word character. -/
def boundaryOk : List Char → Bool
  | [] => true
  | c :: _ => !isWordChar c

/-- Global scan for `\b\d+(?:\.\d+)*\b` matches; `prevWord` tracks whether the
previous character was a word character (for the leading `\b`). -/
def scanNumTokens : Nat → Bool → List Char → List String
  | 0, _, _ => []
  | fuel + 1, prevWord, cs =>
      match cs with
      | [] => []
      | c :: rest =>
          if c.isDigit && !prevWord then
            let p := takeDigitsRun (c :: rest)
            let cands := (chainCandidates p.2.length p.1 p.2).filter
              (fun q => boundaryOk q.2)
            match cands.getLast? with
            | some (tok, r2) => String.mk tok :: scanNumTokens fuel true r2
            | none => scanNumTokens fuel true rest
          else scanNumTokens fuel (isWordChar c) rest

/-- `extractSectionKeys(sectionPath)` (lines 1058-1074): the trimmed
lower-cased path, each pipe-delimited segment, and each embedded numeric
heading, deduplicated in insertion order. -/
def extractSectionKeys (sectionPath : String) : List String :=
  if sectionPath = "" then []
  else
    let s := (strToLower sectionPath)
    dedupKeepFirst
      ([jsTrim s] ++
        ((splitPipe s).map jsTrim).filter (fun seg => seg ≠ "") ++
        scanNumTokens (s.data.length + 1) false s.data)

/-! ## Sorting of scored candidates

The source sorts with `arr.sort((a, b) => b.score - a.score)`: descending by
score, stable for ties (ECMAScript sorts are stable).  The model uses a
stable insertion sort, which yields the same list for this comparator. -/

/-- Insert an entry into a descending-sorted list, after any equal scores
(stability: the element being inserted arrived later). -/
def insertDesc (e : Entry) : List Entry → List Entry
  | [] => [e]
  | x :: xs => if x.score < e.score then e :: x :: xs else x :: insertDesc e xs

/-- `arr.sort((a, b) => b.score - a.score)`. -/
def sortByScoreDesc (l : List Entry) : List Entry :=
  l.foldl (fun acc e => insertDesc e acc) []

/-- Descending order by score. -/
def SortedDesc (l : List Entry) : Prop :=
  l.Pairwise (fun a b => b.score ≤ a.score)

/-! ## Per-query context

The handler derives these from the question and request body once per query
(lines 2082-2096). -/

structure QueryCtx where
  scope : Option String
  isPediatric : Bool
  hasDrugResistanceIntent : Bool
  hasTptIntent : Bool
deriving Repr, DecidableEq

def QueryCtx.isTreatment (ctx : QueryCtx) : Bool := ctx.scope == some "treatment"

def QueryCtx.isDiagnosis (ctx : QueryCtx) : Bool := ctx.scope == some "diagnosis"

def QueryCtx.isPrevention (ctx : QueryCtx) : Bool := ctx.scope == some "prevention"

/-! ## Module-aware boosts and the drug-susceptible penalty (lines 2190-2297)

Each conditional multiplies the running score in sequence, exactly as the
source's successive `entry.score *= ...` statements. -/

/-- The boost/penalty pass over a prose (text-channel) entry (lines 2193-2240). -/
def moduleBoostText (ctx : QueryCtx) (chunks : List Chunk) (e : Entry) : Entry :=
  let c := chunkAt chunks e.index
  let doc := (strToLower c.doc_id)
  let sectionPath := (strToLower c.section_path)
  let s1 := if ctx.isTreatment && strIncludes doc "module4" &&
      strIncludes doc "treatment" && strIncludes doc "2025"
    then e.score * (103 / 100) else e.score
  let s2 := if ctx.isTreatment && ctx.isPediatric && !ctx.hasDrugResistanceIntent &&
      strIncludes doc "module5" && strIncludes doc "pediatr" &&
      (strIncludes sectionPath "5.2." ||
        strIncludes sectionPath "treatment of drug-susceptible tb in children")
    then s1 * (103 / 100) else s1
  let s3 := if ctx.isDiagnosis && ctx.isPediatric && strIncludes doc "module3" &&
      (strIncludes doc "diag" || strIncludes sectionPath "diagnosis")
    then s2 * (103 / 100) else s2
  let s4 := if ctx.isPrevention && strIncludes doc "module1" &&
      strIncludes doc "tpt" && strIncludes doc "2024"
    then s3 * (103 / 100) else s3
  let s5 := if ctx.hasDrugResistanceIntent && isDrugSusceptibleChunk c
    then s4 * (6 / 10) else s4
  { e with score := s5 }

/-- The boost/penalty pass over a table-channel entry (lines 2243-2283); it
differs from the text pass only in the pediatric DS-TB condition, which here
matches on the `5.2.` section number alone. -/
def moduleBoostTable (ctx : QueryCtx) (chunks : List Chunk) (e : Entry) : Entry :=
  let c := chunkAt chunks e.index
  let doc := (strToLower c.doc_id)
  let sectionPath := (strToLower c.section_path)
  let s1 := if ctx.isTreatment && strIncludes doc "module4" &&
      strIncludes doc "treatment" && strIncludes doc "2025"
    then e.score * (103 / 100) else e.score
  let s2 := if ctx.isTreatment && ctx.isPediatric && !ctx.hasDrugResistanceIntent &&
      strIncludes doc "module5" && strIncludes doc "pediatr" &&
      strIncludes sectionPath "5.2."
    then s1 * (103 / 100) else s1
  let s3 := if ctx.isDiagnosis && ctx.isPediatric && strIncludes doc "module3" &&
      (strIncludes doc "diag" || strIncludes sectionPath "diagnosis")
    then s2 * (103 / 100) else s2
  let s4 := if ctx.isPrevention && strIncludes doc "module1" &&
      strIncludes doc "tpt" && strIncludes doc "2024"
    then s3 * (103 / 100) else s3
  let s5 := if ctx.hasDrugResistanceIntent && isDrugSusceptibleChunk c
    then s4 * (6 / 10) else s4
  { e with score := s5 }

/-! ## Section-proximity anchors and the table boost (lines 2300-2362) -/

/-- An anchor record built from a top prose entry (lines 2302-2312). -/
structure Anchor where
  index : Nat
  score : ℚ
  doc_id : String
  section_path : String
  content_type : String
  sectionKeys : List String
deriving Repr, DecidableEq

def mkAnchor (chunks : List Chunk) (e : Entry) : Anchor :=
  let c := chunkAt chunks e.index
  { index := e.index
    score := e.score
    doc_id := c.doc_id
    section_path := c.section_path
    content_type := (strToLower c.content_type)
    sectionKeys := extractSectionKeys c.section_path }

/-- `anchorDocSectionMap` (lines 2314-2337): the top ten prose entries as
anchors, dropping those without a document id. -/
def anchorDocSectionMap (chunks : List Chunk) (scoredText : List Entry) :
    List Anchor :=
  ((scoredText.take 10).map (mkAnchor chunks)).filter (fun a => a.doc_id ≠ "")

/-- `hasModule4DrAnchor` condition (lines 2323-2329). -/
def isModule4DrAnchor (a : Anchor) : Bool :=
  strIncludes (strToLower a.doc_id) "module4" &&
  strIncludes (strToLower a.doc_id) "treatment" &&
  strIncludes (strToLower a.section_path) "chapter 2 : drug-resistant tb treatment"

/-- `hasModule1TptAnchor` condition (lines 2330-2336). -/
def isModule1TptAnchor (a : Anchor) : Bool :=
  strIncludes (strToLower a.doc_id) "module1" &&
  strIncludes (strToLower a.doc_id) "tpt" &&
  strIncludes (strToLower a.section_path) "tb preventive treatment"

/-- `const maxTextScore = scoredText.length ? scoredText[0].score : 1.0;` -/
def maxTextScore (scoredText : List Entry) : ℚ :=
  match scoredText with
  | [] => 1
  | e :: _ => e.score

/-- Whether a table chunk shares a document id and at least one section key
with one of the anchors (lines 2347-2355). -/
def isNeighborTable (anchors : List Anchor) (c : Chunk) : Bool :=
  let tableKeys := extractSectionKeys c.section_path
  anchors.any (fun a =>
    a.doc_id == c.doc_id && a.sectionKeys.any (fun k => tableKeys.contains k))

/-- The per-entry section-proximity boost (lines 2342-2359): a neighboring
table entry is raised to at least `0.98 ×` the best prose score. -/
def sectionProximityBoost (chunks : List Chunk) (anchors : List Anchor)
    (maxText : ℚ) (e : Entry) : Entry :=
  let c := chunkAt chunks e.index
  if c.doc_id = "" then e
  else if isNeighborTable anchors c then
    { e with score := max e.score (maxText * (98 / 100)) }
  else e

/-! ## Stale-content penalties (lines 2365-2401) -/

/-- A pediatric (Module 5) regimen/decision table chunk, as tested by the
stale-content penalties (the `table_subtype` read here is corpus metadata:
the penalty loops run before any table enrichment). -/
def isPedsRegimenDecisionTable (c : Chunk) : Bool :=
  let doc := (strToLower c.doc_id)
  strIncludes doc "module5" && strIncludes doc "pediatr" &&
  (strToLower c.content_type) == "table" &&
  ((strToLower c.table_subtype) == "regimen" || (strToLower c.table_subtype) == "decision")

/-- The legacy-section restriction of the TPT stale penalty (lines 2391-2397). -/
def inLegacyTptSections (c : Chunk) : Bool :=
  let sectionPath := (strToLower c.section_path)
  strIncludes sectionPath "3.3.5" || strIncludes sectionPath "3.3.6" ||
  strIncludes sectionPath "preventive treatment"

/-- Per-entry form of the pediatric-MDR stale penalty (lines 2366-2376). -/
def stalePedsDrPenalty (chunks : List Chunk) (e : Entry) : Entry :=
  if isPedsRegimenDecisionTable (chunkAt chunks e.index) then
    { e with score := e.score * (97 / 100) }
  else e

/-- Per-entry form of the pediatric-TPT stale penalty (lines 2381-2399). -/
def staleTptPenalty (chunks : List Chunk) (e : Entry) : Entry :=
  let c := chunkAt chunks e.index
  if isPedsRegimenDecisionTable c && inLegacyTptSections c then
    { e with score := e.score * (97 / 100) }
  else e

/-! ## Channel merge, force-include and dedup (lines 2404-2497) -/

/-- The Module 4 drug-resistant-treatment prose predicate of the first
force-include block (lines 2434-2443). -/
def isModule4DrProse (chunks : List Chunk) (e : Entry) : Bool :=
  let c := chunkAt chunks e.index
  strIncludes (strToLower c.doc_id) "module4" &&
  strIncludes (strToLower c.doc_id) "treatment" &&
  strIncludes (strToLower c.section_path) "chapter 2 : drug-resistant tb treatment"

/-- The Module 1 TPT prose predicate of the second force-include block
(lines 2459-2472). -/
def isModule1TptProse (chunks : List Chunk) (e : Entry) : Bool :=
  let c := chunkAt chunks e.index
  strIncludes (strToLower c.doc_id) "module1" &&
  strIncludes (strToLower c.doc_id) "tpt" &&
  strIncludes (strToLower c.doc_id) "2024" &&
  (strIncludes (strToLower c.section_path) "tb preventive treatment" ||
    strIncludes (strToLower c.section_path) "tb infection")

/-- The force-include loop (lines 2445-2453 and 2474-2482): walk the
candidates, appending each one whose index is not yet present, until
`needed` reaches zero. -/
def forceInclude : List Entry → List Entry → Nat → List Entry
  | [], combined, _ => combined
  | _ :: _, combined, 0 => combined
  | cand :: rest, combined, needed + 1 =>
      if combined.any (fun e => e.index == cand.index) then
        forceInclude rest combined (needed + 1)
      else forceInclude rest (combined ++ [cand]) needed

/-- `chunks[entry.index].chunk_id`, with `""` for a missing id. -/
def entryChunkId (chunks : List Chunk) (e : Entry) : String :=
  (chunkAt chunks e.index).chunk_id

/-- The dedup loop (lines 2487-2495): entries with a falsy or already-seen
chunk id are dropped; first occurrence wins. -/
def dedupByChunkId (chunks : List Chunk) : List Entry → List String → List Entry
  | [], _ => []
  | e :: rest, seen =>
      let id := entryChunkId chunks e
      if id = "" || seen.contains id then dedupByChunkId chunks rest seen
      else e :: dedupByChunkId chunks rest (id :: seen)

/-! ## Table loading and normalization (lines 1080-1163)

A parsed CSV row (Papa parse with `header: true`) is an object mapping the
CSV header names (the generic `ColumnA`, ... names plus `row_index`) to cell
strings; it is modelled as an association list.  A logical row maps header
labels to cell values; a value of `none` models a JS `undefined` cell. -/

abbrev RawRow := List (String × String)

abbrev LogicalRow := List (String × Option String)

/-- JS property read `row[k]` on a raw row: `none` when the key is absent. -/
def rowGet (r : RawRow) (k : String) : Option String :=
  (r.find? (fun p => p.1 == k)).map (fun p => p.2)

/-- JS property read on a logical row; an absent key and a key stored with an
`undefined` value both read as `none`, as in JS. -/
def lrVal (r : LogicalRow) (k : String) : Option String :=
  match r.find? (fun p => p.1 == k) with
  | some p => p.2
  | none => none

/-- `Object.keys` of a logical row (insertion order). -/
def lrKeys (r : LogicalRow) : List String :=
  r.map (fun p => p.1)

/-- JS property assignment `obj[k] = v`: updates in place if the key exists,
otherwise appends (preserving JS key enumeration order). -/
def lrInsert (k : String) (v : Option String) (r : LogicalRow) : LogicalRow :=
  if r.any (fun p => p.1 == k) then
    r.map (fun p => if p.1 == k then (p.1, v) else p)
  else r ++ [(k, v)]

/-- JS template interpolation of a possibly-undefined value. -/
def tmpl (v : Option String) : String :=
  match v with
  | some s => s
  | none => "undefined"

/-- JS `String(r.row_index)` (the string `"undefined"` when absent). -/
def rowIndexStr (r : RawRow) : String :=
  tmpl (rowGet r "row_index")

/-- The content-column test of `normalizeTableRows` (lines 1140-1149).  The
source regex `/^columna|columnb|...|columnz$/` anchors only its first and
last alternatives, so `columna` is a prefix test, `columnz` a suffix test,
and the letters b through y are bare substring tests. -/
def isGenericColKey (k : String) : Bool :=
  let lower := (strToLower k)
  strStartsWith lower "columna" ||
  jsHasAny lower ["columnb", "columnc", "columnd", "columne", "columnf", "columng",
    "columnh", "columni", "columnj", "columnk", "columnl", "columnm", "columnn",
    "columno", "columnp", "columnq", "columnr", "columns", "columnt", "columnu",
    "columnv", "columnw", "columnx", "columny"] ||
  strEndsWith lower "columnz"

/-- `normalizeTableRows(rawRows)` (lines 1127-1163): pick the header row
(declared `row_index` of 1, else the first row), keep the generic content
columns with a non-empty header label, and re-key every other row by those
labels plus the `_row_index` passthrough. -/
def normalizeTableRows (rawRows : List RawRow) :
    Option RawRow × List LogicalRow :=
  match rawRows with
  | [] => (none, [])
  | r0 :: _ =>
      let headerRow := (rawRows.find? (fun r => rowIndexStr r == "1")).getD r0
      let dataRows := rawRows.filter (fun r => rowIndexStr r ≠ rowIndexStr headerRow)
      let allKeys := headerRow.map (fun p => p.1)
      let contentCols := allKeys.filter (fun k =>
        isGenericColKey k &&
          (match rowGet headerRow k with
            | some v => v ≠ "" && jsTrim v ≠ ""
            | none => false))
      let logicalRows := dataRows.map (fun row =>
        let logical := contentCols.foldl (fun acc col =>
          let headerLabel := jsTrim ((rowGet headerRow col).getD "")
          if headerLabel = "" then acc
          else lrInsert headerLabel (rowGet row col) acc) []
        lrInsert "_row_index" (rowGet row "row_index") logical)
      (some headerRow, logicalRows)

/-! ## Table path resolution and loading (lines 1080-1124)

The table store is modelled as a partial map from resolved repo-relative
paths to parsed raw rows; `none` models a thrown read/parse error.  The
`process.cwd()` prefix of the source's absolute path is omitted, and the
dot-segment normalization performed by `path.posix.join` is not modelled
(no claim depends on it). -/

/-- `.replace(/\\\\/g, "/")`: each pair of backslashes becomes one slash. -/
def replaceBackslashPairs : List Char → List Char
  | '\\' :: '\\' :: rest => '/' :: replaceBackslashPairs rest
  | c :: rest => c :: replaceBackslashPairs rest
  | [] => []

/-- `.replace(/\\/g, "/")` applied after the pair replacement. -/
def replaceSingleBackslash (cs : List Char) : List Char :=
  cs.map (fun c => if c = '\\' then '/' else c)

def dropLeadingSlashes : List Char → List Char
  | '/' :: rest => dropLeadingSlashes rest
  | cs => cs

/-- `.replace(/^\.\/+/, "")`. -/
def stripDotSlash (cs : List Char) : List Char :=
  match cs with
  | '.' :: '/' :: rest => dropLeadingSlashes rest
  | _ => cs

/-- `.replace(/^\.\.\//, "")`. -/
def stripDotDotSlash (cs : List Char) : List Char :=
  match cs with
  | '.' :: '.' :: '/' :: rest => rest
  | _ => cs

/-- `resolveTablePath(attachmentPathFromMeta)` (lines 1080-1104), without the
`process.cwd()` prefix. -/
def resolveTablePath (attachmentPathFromMeta : String) : Option String :=
  if attachmentPathFromMeta = "" then none
  else
    let cleaned := String.mk (stripDotDotSlash (stripDotSlash
      (replaceSingleBackslash (replaceBackslashPairs attachmentPathFromMeta.data))))
    if strStartsWith cleaned "public/rag/" then some cleaned
    else if strStartsWith cleaned "public/" then
      some ("public/rag/" ++ String.mk (cleaned.data.drop 7))
    else if strStartsWith cleaned "rag/" then some ("public/" ++ cleaned)
    else some ("public/rag/" ++ cleaned)

/-- `loadTableRows` (lines 1107-1124): resolve the path and read the store;
`none` models the thrown error on an unresolvable path or a failed read. -/
def loadTableRows (store : String → Option (List RawRow))
    (attachmentPathFromMeta : String) : Option (List RawRow) :=
  match resolveTablePath attachmentPathFromMeta with
  | none => none
  | some p => store p

/-! ## Table subtype detection (lines 1165-1235) -/

/-- The `/if.*then/` caption test: an occurrence of `if` followed, with no
intervening newline (JS `.` does not match newlines), by `then`. -/
def ifThenScan : Nat → List Char → Bool
  | 0, _ => false
  | fuel + 1, cs =>
      match cs with
      | [] => false
      | _ :: rest =>
          (startsWithChars ['i', 'f'] cs &&
            containsChars ['t', 'h', 'e', 'n']
              ((cs.drop 2).takeWhile (fun ch => ch != '\n'))) ||
          ifThenScan fuel rest

def hasIfThen (s : String) : Bool :=
  ifThenScan (s.data.length + 1) s.data

/-- `detectTableSubtype(chunk, logicalRows, headerRow)` (lines 1165-1235).
The header list here is the raw lower-cased key set of the first logical row
(including `_row_index`), as in the source.  `option(s)?` matches exactly
when `option` is contained. -/
def detectTableSubtype (chunk : Chunk) (logicalRows : List LogicalRow) :
    String :=
  let caption := (strToLower chunk.caption)
  let sectionPath := (strToLower chunk.section_path)
  let headers : List String :=
    match logicalRows with
    | [] => []
    | r :: _ => (lrKeys r).map strToLower
  if jsHasAny caption ["dose", "dosage", "dosing", "mg/kg", "mg/ day", "mg per kg",
      "weight band", "weight-band"] ||
     headers.any (fun h => jsHasAny h ["kg", "dose", "weight band", "weight-band"]) then
    if jsHasAny caption ["child", "paediatric", "pediatric", "infant", "neonate"] ||
       strIncludes sectionPath "child" then "peds_dosing"
    else "dosing"
  else if jsHasAny caption ["eligib", "criteria"] || hasIfThen caption ||
      jsHasAny caption ["decision", "indication", "when to", "option"] ||
      headers.any (fun h => jsHasAny h ["criteria", "recommendation", "option", "action"])
    then "decision"
  else if strIncludes caption "regimen" ||
      (headers.any (fun h => strIncludes h "regimen") &&
        headers.any (fun h => jsHasAny h ["drug", "component", "medicine", "combination"]))
    then "regimen"
  else if jsHasAny caption ["monitoring", "follow-up", "follow up", "timeline", "schedule"] ||
      headers.any (fun h => jsHasAny h ["baseline", "month", "week", "visit", "timepoint"])
    then "timeline"
  else if jsHasAny caption ["interaction", "drug-drug", "drug drug", "ddi", "qt",
      "contraindication"] ||
      headers.any (fun h => jsHasAny h ["interaction", "effect", "recommendation", "ddi"])
    then "interaction"
  else if jsHasAny caption ["toxicity", "adverse event", "side effect", "hepatotox",
      "neuropathy", "ae management"] ||
      headers.any (fun h => jsHasAny h ["grade", "toxicity", "ctcae"])
    then "toxicity"
  else "generic"

/-! ## Renderers (lines 1238-1934)

Each renderer returns the summary text plus the debug fields the claims
refer to (the renderer tag and the fallback note); the remaining debug
statistics (header keys, row counts, chosen column keys) are observability
metadata and are not modelled. -/

structure RenderOut where
  text : String
  renderer : String
  note : Option String := none
deriving Repr, DecidableEq

/-- `nonEmpty(val)` (lines 1240-1242). -/
def nonEmptyVal (v : Option String) : Bool :=
  match v with
  | some s => jsTrim s ≠ ""
  | none => false

/-- JS truthiness of a cell value (used by `if (form)`). -/
def jsTruthy (v : Option String) : Bool :=
  match v with
  | some s => s ≠ ""
  | none => false

/-- `getTableHeaders(logicalRows)` (lines 1244-1247). -/
def getTableHeaders (logicalRows : List LogicalRow) : List String :=
  match logicalRows with
  | [] => []
  | r :: _ => (lrKeys r).filter (fun h => h ≠ "_row_index")

/-- `arr.join(sep)`. -/
def joinSep (sep : String) : List String → String
  | [] => ""
  | [x] => x
  | x :: y :: rest => x ++ sep ++ joinSep sep (y :: rest)

/-- The `/medicine|drug|product|regimen|group|tb drug/i` med-column search
shared by the dosing renderers. -/
def findMedKey (headers : List String) : String :=
  ((headers.find? (fun h =>
    jsHasAny (strToLower h) ["medicine", "drug", "product", "regimen", "group", "tb drug"])).getD
    (headers.headD ""))

/-- The `(kg|weight band|weight-band|weight range| to <|<=|>=)/i` filter
shared by the dosing renderers. -/
def weightBandKeysOf (headers : List String) : List String :=
  headers.filter (fun h =>
    jsHasAny (strToLower h) ["kg", "weight band", "weight-band", "weight range",
      " to <", "<=", ">="])

/-- `renderGenericTable(chunk, logicalRows, headerRow)` (lines 1910-1934). -/
def renderGenericTable (chunk : Chunk) (logicalRows : List LogicalRow) :
    RenderOut :=
  let caption := if chunk.caption ≠ "" then chunk.caption else "Table"
  let headers := getTableHeaders logicalRows
  if logicalRows.isEmpty || headers.isEmpty then
    { text := caption ++ ". (No rows found.)", renderer := "generic" }
  else
    let lines := (caption ++ ". Columns: " ++ joinSep ", " headers) ::
      logicalRows.mapIdx (fun idx row =>
        "Row " ++ toString (idx + 1) ++ ": " ++
          joinSep "; " (headers.map (fun h => h ++ ": " ++ ((lrVal row h).getD ""))))
    { text := joinSep "\n" lines, renderer := "generic" }

/-- `renderDosingTable(chunk, logicalRows, headerRow)` (lines 1296-1365). -/
def renderDosingTable (chunk : Chunk) (logicalRows : List LogicalRow) :
    RenderOut :=
  let caption := if chunk.caption ≠ "" then chunk.caption else "Dosing table"
  let headers := getTableHeaders logicalRows
  if logicalRows.isEmpty || headers.isEmpty then
    { text := caption ++ ". (No rows found.)", renderer := "dosing" }
  else
    let medKey := findMedKey headers
    let weightBandKeys := weightBandKeysOf headers
    if weightBandKeys.isEmpty then
      let generic := renderGenericTable chunk logicalRows
      { text := generic.text, renderer := "dosing",
        note := some "fallback_generic_no_weight_bands" }
    else
      let rowLines := logicalRows.filterMap (fun row =>
        let med := lrVal row medKey
        if !nonEmptyVal med then none
        else
          let bandParts := weightBandKeys.filterMap (fun k =>
            let v := lrVal row k
            if nonEmptyVal v then some (k ++ ": " ++ (jsTrim (v.getD ""))) else none)
          if bandParts.isEmpty then
            let cells := headers.filterMap (fun h =>
              let v := lrVal row h
              if nonEmptyVal v then some (h ++ ": " ++ (jsTrim (v.getD ""))) else none)
            if cells.isEmpty then none
            else some (tmpl med ++ ": " ++ joinSep "; " cells)
          else some (tmpl med ++ ": " ++ joinSep "; " bandParts))
      { text := joinSep "\n" ((caption ++ ". Weight-band dosing summary:") :: rowLines)
        renderer := "dosing" }

/-- `renderPedsDosingTable(chunk, logicalRows, headerRow)` (lines 1367-1469). -/
def renderPedsDosingTable (chunk : Chunk) (logicalRows : List LogicalRow) :
    RenderOut :=
  let caption := if chunk.caption ≠ "" then chunk.caption else "Paediatric dosing table"
  let headers := getTableHeaders logicalRows
  if logicalRows.isEmpty || headers.isEmpty then
    { text := caption ++ ". (No rows found.)", renderer := "peds_dosing" }
  else
    let medKey := findMedKey headers
    let formKey := headers.find? (fun h =>
      jsHasAny (strToLower h) ["formulation", "form", "dispersible", "fdc"])
    let weightBandKeys := weightBandKeysOf headers
    let otherKeys := headers.filter (fun h =>
      h ≠ medKey &&
      (match formKey with | some f => h ≠ f | none => true) &&
      !weightBandKeys.contains h)
    let medIsWeight := weightBandKeys.contains medKey
    let extraWeightKeys := if medIsWeight then weightBandKeys.filter (fun k => k ≠ medKey) else []
    if weightBandKeys.isEmpty then
      let generic := renderGenericTable chunk logicalRows
      { text := generic.text, renderer := "peds_dosing",
        note := some "fallback_generic_no_weight_bands" }
    else
      let rowLines := logicalRows.filterMap (fun row =>
        let med := lrVal row medKey
        if !nonEmptyVal med then none
        else
          let form : Option String := match formKey with
            | some fk => lrVal row fk
            | none => none
          let bandParts := weightBandKeys.filterMap (fun k =>
            let v := lrVal row k
            if nonEmptyVal v then some (k ++ ": " ++ (jsTrim (v.getD ""))) else none)
          let doseParts := (otherKeys ++ extraWeightKeys).filterMap (fun k =>
            let v := lrVal row k
            if nonEmptyVal v then some (k ++ ": " ++ (jsTrim (v.getD ""))) else none)
          let medPart := tmpl med ++ (if jsTruthy form then " (" ++ tmpl form ++ ")" else "")
          if bandParts.isEmpty && doseParts.isEmpty then
            let cells := headers.filterMap (fun h =>
              let v := lrVal row h
              if nonEmptyVal v then some (h ++ ": " ++ (jsTrim (v.getD ""))) else none)
            if cells.isEmpty then none
            else some (medPart ++ " -> " ++ joinSep "; " cells)
          else
            let parts := (if medIsWeight then [medKey ++ ": " ++ jsTrim (tmpl med)]
              else bandParts) ++ doseParts
            some (medPart ++ " -> " ++ joinSep "; " parts))
      { text := joinSep "\n"
          ((caption ++ ". Paediatric weight-band dosing summary:") :: rowLines)
        renderer := "peds_dosing" }

/-- `renderRegimenTable(chunk, logicalRows, headerRow)` (lines 1471-1545). -/
def renderRegimenTable (chunk : Chunk) (logicalRows : List LogicalRow) :
    RenderOut :=
  let caption := if chunk.caption ≠ "" then chunk.caption else "Regimen composition table"
  let headers := getTableHeaders logicalRows
  if logicalRows.isEmpty || headers.isEmpty then
    { text := caption ++ ". (No rows found.)", renderer := "regimen" }
  else
    let regimenKey := ((headers.find? (fun h =>
      jsHasAny (strToLower h) ["regimen", "name", "strategy", "option"])).getD (headers.headD ""))
    let drugsKey := headers.find? (fun h =>
      jsHasAny (strToLower h) ["drug", "component", "medicine", "composition"])
    let durationKey := headers.find? (fun h =>
      jsHasAny (strToLower h) ["duration", "months", "weeks", "days", "length of treatment"])
    let rowLines := (logicalRows.mapIdx (fun idx row =>
      let regimen := lrVal row regimenKey
      if !nonEmptyVal regimen then
        let cells := headers.filterMap (fun h =>
          let v := lrVal row h
          if nonEmptyVal v then some (h ++ ": " ++ (jsTrim (v.getD ""))) else none)
        if cells.isEmpty then none
        else some ("Row " ++ toString (idx + 1) ++ ": " ++ joinSep "; " cells)
      else
        let parts :=
          (match drugsKey with
            | some dk =>
                let v := lrVal row dk
                if nonEmptyVal v then [(jsTrim (v.getD ""))] else []
            | none => []) ++
          (match durationKey with
            | some dk =>
                let v := lrVal row dk
                if nonEmptyVal v then ["duration: " ++ (jsTrim (v.getD ""))] else []
            | none => [])
        if parts.isEmpty then
          let cells := headers.filterMap (fun h =>
            let v := lrVal row h
            if nonEmptyVal v then some (h ++ ": " ++ (jsTrim (v.getD ""))) else none)
          some (tmpl regimen ++ ": " ++ joinSep "; " cells)
        else some (tmpl regimen ++ " - " ++ joinSep "; " parts))).filterMap id
    { text := joinSep "\n" ((caption ++ ". Regimen components and options:") :: rowLines)
      renderer := "regimen" }

/-- `renderDecisionTable(chunk, logicalRows, headerRow)` (lines 1547-1628). -/
def renderDecisionTable (chunk : Chunk) (logicalRows : List LogicalRow) :
    RenderOut :=
  let caption := if chunk.caption ≠ "" then chunk.caption else "Decision table"
  let headers := getTableHeaders logicalRows
  if logicalRows.isEmpty || headers.isEmpty then
    { text := caption ++ ". (No rows found.)", renderer := "decision" }
  else
    let isConditionHeader := fun (h : String) =>
      jsHasAny (strToLower h) ["if", "criteria", "condition", "situation", "scenario",
        "finding", "result", "status", "baseline", "risk"]
    let isActionHeader := fun (h : String) =>
      jsHasAny (strToLower h) ["then", "recommendation", "action", "management",
        "treatment", "decision", "next step", "regimen"]
    let rowResults : List (Option (String × Bool)) := logicalRows.mapIdx (fun idx row =>
      let conditionParts := headers.filterMap (fun h =>
        let v := lrVal row h
        if nonEmptyVal v && !isActionHeader h && isConditionHeader h then
          some (h ++ ": " ++ (jsTrim (v.getD "")))
        else none)
      let actionParts := headers.filterMap (fun h =>
        let v := lrVal row h
        if nonEmptyVal v && isActionHeader h then
          some (h ++ ": " ++ (jsTrim (v.getD "")))
        else none)
      let otherParts := headers.filterMap (fun h =>
        let v := lrVal row h
        if nonEmptyVal v && !isActionHeader h && !isConditionHeader h then
          some (h ++ ": " ++ (jsTrim (v.getD "")))
        else none)
      if conditionParts.isEmpty && actionParts.isEmpty then
        if otherParts.isEmpty then none
        else some ("Row " ++ toString (idx + 1) ++ ": " ++ joinSep "; " otherParts, false)
      else
        let conditionParts2 :=
          if conditionParts.isEmpty && !otherParts.isEmpty then otherParts
          else conditionParts
        let actionParts2 :=
          if !conditionParts.isEmpty && actionParts.isEmpty && !otherParts.isEmpty then
            otherParts
          else actionParts
        let condText := if !conditionParts2.isEmpty then joinSep "; " conditionParts2
          else "the criteria in this row are met"
        let actionText := if !actionParts2.isEmpty then joinSep "; " actionParts2
          else "see other columns in this row for recommended action"
        some ("IF " ++ condText ++ " THEN " ++ actionText, true))
    let rowLines := (rowResults.filterMap id).map (fun p => p.1)
    let rowsWithIfThen := ((rowResults.filterMap id).filter (fun p => p.2)).length
    if rowsWithIfThen = 0 then
      let generic := renderGenericTable chunk logicalRows
      { text := generic.text, renderer := "decision",
        note := some "fallback_generic_no_if_then_rows" }
    else
      { text := joinSep "\n" ((caption ++ ". IF-THEN decision rules:") :: rowLines)
        renderer := "decision" }

/-! Timeline tables (lines 1249-1292 and 1630-1723). -/

/-- `looksTimeLike(value)` (lines 1250-1265).  The source's second test,
`/(month|week|day)\s*\d+/`, only matches strings that already contain
`month`, `week` or `day` and is therefore subsumed by the first test. -/
def looksTimeLike (value : Option String) : Bool :=
  match value with
  | none => false
  | some s =>
      if s = "" then false
      else jsHasAny (strToLower s) ["baseline", "month", "week", "day", "visit",
        "timepoint", "end of treatment", "posttreatment", "follow-up", "follow up",
        "followup"]

inductive TimelineOrientation where
  | cols (entityHeader : String) (timeHeaders : List String)
  | rows (timeKey : String) (entityHeaders : List String)
  | unknown
deriving Repr, DecidableEq

/-- `guessTimelineOrientation(logicalRows)` (lines 1267-1292). -/
def guessTimelineOrientation (logicalRows : List LogicalRow) :
    TimelineOrientation :=
  let headers := getTableHeaders logicalRows
  if headers.isEmpty then .unknown
  else
    let timeHeaders := headers.filter (fun h => looksTimeLike (some h))
    if timeHeaders.length ≥ 2 then
      .cols ((headers.find? (fun h => !timeHeaders.contains h)).getD (headers.headD ""))
        timeHeaders
    else
      let firstCol := headers.headD ""
      let sampleRows := logicalRows.take 6
      let timeLikeCount :=
        (sampleRows.filter (fun r => looksTimeLike (lrVal r firstCol))).length
      if timeLikeCount ≥ 2 then .rows firstCol (headers.drop 1)
      else .unknown

/-- `renderTimelineTable(chunk, logicalRows, headerRow)` (lines 1630-1723). -/
def renderTimelineTable (chunk : Chunk) (logicalRows : List LogicalRow) :
    RenderOut :=
  let caption := if chunk.caption ≠ "" then chunk.caption else "Monitoring schedule"
  let headers := getTableHeaders logicalRows
  if logicalRows.isEmpty || headers.isEmpty then
    { text := caption ++ ". (No rows found.)", renderer := "timeline" }
  else
    let headLine := caption ++ ". Follow-up schedule over time:"
    match guessTimelineOrientation logicalRows with
    | .cols entityHeader timeHeaders =>
        let rowLines := logicalRows.filterMap (fun row =>
          let entity := lrVal row entityHeader
          if !nonEmptyVal entity then none
          else
            let timeParts := timeHeaders.filterMap (fun h =>
              let v := lrVal row h
              if nonEmptyVal v then some (h ++ ": " ++ (jsTrim (v.getD ""))) else none)
            if timeParts.isEmpty then none
            else some ("For " ++ tmpl entity ++ ": " ++ joinSep "; " timeParts))
        if !rowLines.isEmpty then
          { text := joinSep "\n" (headLine :: rowLines), renderer := "timeline" }
        else
          let generic := renderGenericTable chunk logicalRows
          { text := generic.text, renderer := "timeline",
            note := some "fallback_generic_unknown_orientation" }
    | .rows timeKey entityHeaders =>
        let rowLines := logicalRows.filterMap (fun row =>
          let whenVal := lrVal row timeKey
          if !nonEmptyVal whenVal then none
          else
            let parts := entityHeaders.filterMap (fun h =>
              let v := lrVal row h
              if nonEmptyVal v then some (h ++ ": " ++ (jsTrim (v.getD ""))) else none)
            if parts.isEmpty then none
            else some ("At " ++ tmpl whenVal ++ ": " ++ joinSep "; " parts))
        if !rowLines.isEmpty then
          { text := joinSep "\n" (headLine :: rowLines), renderer := "timeline" }
        else
          let generic := renderGenericTable chunk logicalRows
          { text := generic.text, renderer := "timeline",
            note := some "fallback_generic_unknown_orientation" }
    | .unknown =>
        let generic := renderGenericTable chunk logicalRows
        { text := generic.text, renderer := "timeline",
          note := some "fallback_generic_unknown_orientation" }

/-- `renderInteractionTable(chunk, logicalRows, headerRow)` (lines 1725-1824). -/
def renderInteractionTable (chunk : Chunk) (logicalRows : List LogicalRow) :
    RenderOut :=
  let caption := if chunk.caption ≠ "" then chunk.caption else "Drug-drug interaction table"
  let headers := getTableHeaders logicalRows
  if logicalRows.isEmpty || headers.isEmpty then
    { text := caption ++ ". (No rows found.)", renderer := "interaction" }
  else
    let isDrugHeader := fun (h : String) =>
      jsHasAny (strToLower h) ["drug1", "drug 1", "drug2", "drug 2", "drug a", "drug b",
        "medicine 1", "medicine 2", "comedication", "arv", "antiretroviral",
        "tb drug", "rifampin", "rifampicin", "rifapentine"] ||
      jsHasAny (strToLower h) ["drug", "medicine", "regimen"]
    let effectKey := headers.find? (fun h =>
      jsHasAny (strToLower h) ["interaction", "effect", "impact", "change in level"])
    let recKey := headers.find? (fun h =>
      jsHasAny (strToLower h) ["recommendation", "management", "action", "dose adjustment",
        "avoid"])
    let drugHeaders := headers.filter isDrugHeader
    if drugHeaders.isEmpty then
      let generic := renderGenericTable chunk logicalRows
      { text := generic.text, renderer := "interaction",
        note := some "fallback_generic_no_drug_headers" }
    else
      let rowResults : List (Option (String × Bool)) := logicalRows.mapIdx (fun idx row =>
        let drugs := drugHeaders.filterMap (fun h =>
          let v := lrVal row h
          if nonEmptyVal v then some (jsTrim (v.getD "")) else none)
        let effect := match effectKey with
          | some ek =>
              let v := lrVal row ek
              if nonEmptyVal v then some (jsTrim (v.getD "")) else none
          | none => none
        let rec0 := match recKey with
          | some rk =>
              let v := lrVal row rk
              if nonEmptyVal v then some (jsTrim (v.getD "")) else none
          | none => none
        if drugs.isEmpty && effect.isNone && rec0.isNone then
          let cells := headers.filterMap (fun h =>
            let v := lrVal row h
            if nonEmptyVal v then some (h ++ ": " ++ (jsTrim (v.getD ""))) else none)
          if cells.isEmpty then none
          else some ("Row " ++ toString (idx + 1) ++ ": " ++ joinSep "; " cells, false)
        else
          let line0 := if !drugs.isEmpty then "Combination " ++ joinSep " + " drugs else ""
          let line1 := match effect with
            | some e => line0 ++ (if line0 ≠ "" then " - " else "") ++ "effect: " ++ e
            | none => line0
          let line2 := match rec0 with
            | some r => line1 ++ (if line1 ≠ "" then "; " else "") ++ "recommendation: " ++ r
            | none => line1
          let lineOut := if line2 ≠ "" then line2
            else "Row " ++ toString (idx + 1) ++ ": (see table)"
          some (lineOut, !drugs.isEmpty))
      let rowLines := (rowResults.filterMap id).map (fun p => p.1)
      let rowsWithCombos := ((rowResults.filterMap id).filter (fun p => p.2)).length
      if rowsWithCombos = 0 then
        let generic := renderGenericTable chunk logicalRows
        { text := generic.text, renderer := "interaction",
          note := some "fallback_generic_no_combos" }
      else
        { text := joinSep "\n"
            ((caption ++ ". Drug combinations and recommendations:") :: rowLines)
          renderer := "interaction" }

/-- `renderToxicityTable(chunk, logicalRows, headerRow)` (lines 1826-1908). -/
def renderToxicityTable (chunk : Chunk) (logicalRows : List LogicalRow) :
    RenderOut :=
  let caption := if chunk.caption ≠ "" then chunk.caption else "Toxicity / adverse event table"
  let headers := getTableHeaders logicalRows
  if logicalRows.isEmpty || headers.isEmpty then
    { text := caption ++ ". (No rows found.)", renderer := "toxicity" }
  else
    let gradeKey := ((headers.find? (fun h =>
      jsHasAny (strToLower h) ["grade", "severity", "ctcae"])).getD (headers.headD ""))
    let descKey := headers.find? (fun h =>
      jsHasAny (strToLower h) ["description", "finding", "toxicity", "event", "symptom"])
    let mgmtKey := headers.find? (fun h =>
      jsHasAny (strToLower h) ["management", "action", "recommendation", "dose adjustment",
        "stop"])
    let rowResults : List (Option (String × Bool)) := logicalRows.mapIdx (fun idx row =>
      let grade := lrVal row gradeKey
      let desc := match descKey with
        | some dk => lrVal row dk
        | none => none
      let mgmt := match mgmtKey with
        | some mk2 => lrVal row mk2
        | none => none
      if !nonEmptyVal grade && !nonEmptyVal desc && !nonEmptyVal mgmt then
        let cells := headers.filterMap (fun h =>
          let v := lrVal row h
          if nonEmptyVal v then some (h ++ ": " ++ (jsTrim (v.getD ""))) else none)
        if cells.isEmpty then none
        else some ("Row " ++ toString (idx + 1) ++ ": " ++ joinSep "; " cells, false)
      else
        let parts := (if nonEmptyVal desc then [(jsTrim (desc.getD ""))] else []) ++
          (if nonEmptyVal mgmt then ["management: " ++ (jsTrim (mgmt.getD ""))] else [])
        let lineOut := if parts.isEmpty then
            "Grade " ++ tmpl grade ++ ": see table row " ++ toString (idx + 1)
          else "Grade " ++ tmpl grade ++ ": " ++ joinSep " - " parts
        some (lineOut, nonEmptyVal grade))
    let rowLines := (rowResults.filterMap id).map (fun p => p.1)
    let rowsWithGrades := ((rowResults.filterMap id).filter (fun p => p.2)).length
    if rowsWithGrades = 0 then
      let generic := renderGenericTable chunk logicalRows
      { text := generic.text, renderer := "toxicity",
        note := some "fallback_generic_no_grades" }
    else
      { text := joinSep "\n"
          ((caption ++ ". Toxicity grades and management:") :: rowLines)
        renderer := "toxicity" }

/-! ## Dispatch and enrichment (lines 1936-2027) -/

structure RenderedTable where
  subtype : String
  tableText : String
  renderer : String
  note : Option String
deriving Repr, DecidableEq

/-- `renderTable(chunk, rawRows)` (lines 1936-1985): normalize, detect the
subtype, and dispatch to the dedicated renderer (generic as the default). -/
def renderTable (chunk : Chunk) (rawRows : List RawRow) : RenderedTable :=
  let p := normalizeTableRows rawRows
  let logicalRows := p.2
  let subtype0 := detectTableSubtype chunk logicalRows
  let subtype := if subtype0 = "" then "generic" else subtype0
  if subtype = "dosing" then
    let r := renderDosingTable chunk logicalRows
    { subtype := subtype, tableText := r.text, renderer := r.renderer, note := r.note }
  else if subtype = "peds_dosing" then
    let r := renderPedsDosingTable chunk logicalRows
    { subtype := subtype, tableText := r.text, renderer := r.renderer, note := r.note }
  else if subtype = "regimen" then
    let r := renderRegimenTable chunk logicalRows
    { subtype := subtype, tableText := r.text, renderer := r.renderer, note := r.note }
  else if subtype = "decision" then
    let r := renderDecisionTable chunk logicalRows
    { subtype := subtype, tableText := r.text, renderer := r.renderer, note := r.note }
  else if subtype = "timeline" then
    let r := renderTimelineTable chunk logicalRows
    { subtype := subtype, tableText := r.text, renderer := r.renderer, note := r.note }
  else if subtype = "interaction" then
    let r := renderInteractionTable chunk logicalRows
    { subtype := subtype, tableText := r.text, renderer := r.renderer, note := r.note }
  else if subtype = "toxicity" then
    let r := renderToxicityTable chunk logicalRows
    { subtype := subtype, tableText := r.text, renderer := r.renderer, note := r.note }
  else
    let r := renderGenericTable chunk logicalRows
    { subtype := "generic", tableText := r.text, renderer := r.renderer, note := r.note }

structure TableOptions where
  includeTableRows : Bool := false
  tableRowLimit : Option Int := none
deriving Repr, DecidableEq

/-- A chunk after the enrichment step.  The `add_*` fields model the
properties the object spread in `enrichChunkWithTable` adds on success;
they stay `none` when enrichment is skipped or fails, leaving the chunk
unchanged.  The `table_debug` payload is not modelled. -/
structure Enriched where
  base : Chunk
  add_table_subtype : Option String := none
  add_table_text : Option String := none
  add_table_rows : Option (List RawRow) := none
  add_table_row_count : Option Nat := none
deriving Repr, DecidableEq

def Enriched.ofChunk (c : Chunk) : Enriched := { base := c }

/-- `enrichChunkWithTable(chunk, options)` (lines 1988-2027): non-table
chunks and chunks without an attachment path pass through; a failed load
(the `catch` branch) returns the chunk unchanged; otherwise the rendered
table fields are added.  `Math.floor` on the integer-modelled row limit is
the identity. -/
def enrichChunkWithTable (store : String → Option (List RawRow)) (chunk : Chunk)
    (options : TableOptions) : Enriched :=
  let includeTableRows := options.includeTableRows
  let tableRowLimit : Int := match options.tableRowLimit with
    | some n => max 1 n
    | none => 0
  let ct := (strToLower chunk.content_type)
  if ct ≠ "table" || chunk.attachment_path = "" then .ofChunk chunk
  else
    match loadTableRows store chunk.attachment_path with
    | none => .ofChunk chunk
    | some rawRows =>
        let limitedRows := if includeTableRows then
            some (rawRows.take (if tableRowLimit = 0 then rawRows.length
              else tableRowLimit.toNat))
          else none
        let r := renderTable chunk rawRows
        { base := chunk
          add_table_subtype := some r.subtype
          add_table_text := some r.tableText
          add_table_rows := limitedRows
          add_table_row_count := some rawRows.length }

/-! ## The request handler (lines 2056-2564) -/

structure ReqBody where
  question : String := ""
  top_k : Option Int := none
  scope : Option String := none
  include_table_rows : Bool := false
  table_row_limit : Option Int := none
deriving Repr, DecidableEq

/-- One element of the response `results` array (lines 2500-2520). -/
structure RagResult where
  doc_id : String
  guideline_title : String
  year : String
  chunk_id : String
  section_path : String
  text : String
  content_type : String
  attachment_id : String
  attachment_path : String
  table_subtype : Option String
  table_text : Option String
  table_rows : Option (List RawRow)
  table_row_count : Option Nat
  score : ℚ
deriving Repr, DecidableEq

/-- Build one response result from an enriched chunk (lines 2500-2520):
`c.field ?? null` reads the added field when enrichment set it, otherwise
the base chunk's metadata (with `""` modelling an absent field). -/
def mkResult (includeTableRows : Bool) (e : Enriched) (score : ℚ) : RagResult :=
  { doc_id := e.base.doc_id
    guideline_title := e.base.guideline_title
    year := e.base.year
    chunk_id := e.base.chunk_id
    section_path := e.base.section_path
    text := e.base.text
    content_type := e.base.content_type
    attachment_id := e.base.attachment_id
    attachment_path := e.base.attachment_path
    table_subtype := match e.add_table_subtype with
      | some s => some s
      | none => if e.base.table_subtype = "" then none else some e.base.table_subtype
    table_text := e.add_table_text
    table_rows := if includeTableRows then e.add_table_rows else none
    table_row_count := e.add_table_row_count
    score := score }

structure RagResponse where
  question : String
  top_k : Int
  scope : Option String
  results : List RagResult
deriving Repr, DecidableEq

/-- The index set used for retrieval (lines 2147-2153): the scope-filtered
subset, falling back to the full index set when the filter leaves nothing. -/
def indicesAfterScopeFallback (chunks : List Chunk) (embCount : Nat)
    (scope : Option String) : List Nat :=
  let fullIndices := List.range embCount
  let scopedIndices := filterIndicesByScope fullIndices chunks scope
  if scopedIndices.isEmpty then fullIndices else scopedIndices

/-- The section-proximity pass over the table channel (lines 2300-2362):
build the anchors from the current top prose entries and pull neighboring
tables up, then re-sort. -/
def sectionProximityStage (chunks : List Chunk) (scoredText tables : List Entry) :
    List Entry :=
  sortByScoreDesc (tables.map (sectionProximityBoost chunks
    (anchorDocSectionMap chunks scoredText) (maxTextScore scoredText)))

/-- The pediatric-MDR stale-content pass (lines 2365-2378), guarded by scope,
flags and the Module 4 DR anchor. -/
def stalePedsDrStage (chunks : List Chunk) (ctx : QueryCtx) (hasM4DrAnchor : Bool)
    (tables : List Entry) : List Entry :=
  if ctx.isTreatment && ctx.isPediatric && ctx.hasDrugResistanceIntent &&
      hasM4DrAnchor then
    sortByScoreDesc (tables.map (stalePedsDrPenalty chunks))
  else tables

/-- The pediatric-TPT stale-content pass (lines 2380-2401), guarded by scope,
the TPT flag and the Module 1 TPT anchor. -/
def staleTptStage (chunks : List Chunk) (ctx : QueryCtx) (hasM1TptAnchor : Bool)
    (tables : List Entry) : List Entry :=
  if ctx.isPrevention && ctx.hasTptIntent && hasM1TptAnchor then
    sortByScoreDesc (tables.map (staleTptPenalty chunks))
  else tables

/-- The Module 4 DR force-include pass (lines 2432-2455). -/
def forceIncludeM4Stage (chunks : List Chunk) (ctx : QueryCtx)
    (scoredText combined : List Entry) : List Entry :=
  if ctx.isTreatment && ctx.isPediatric && ctx.hasDrugResistanceIntent then
    sortByScoreDesc
      (forceInclude (scoredText.filter (isModule4DrProse chunks)) combined 2)
  else combined

/-- The Module 1 TPT force-include pass (lines 2457-2484). -/
def forceIncludeM1Stage (chunks : List Chunk) (ctx : QueryCtx)
    (scoredText combined : List Entry) : List Entry :=
  if ctx.isPrevention && ctx.hasTptIntent then
    sortByScoreDesc
      (forceInclude (scoredText.filter (isModule1TptProse chunks)) combined 2)
  else combined

/-- The post-boost sorted prose channel (lines 2178-2296): base similarity
scores over the non-table scoped indices, module boosts, re-sort. -/
def scoredTextFinal (chunks : List Chunk) (embeddings : List (List ℚ))
    (qEmbedding : List ℚ) (ctx : QueryCtx) : List Entry :=
  let indices := indicesAfterScopeFallback chunks embeddings.length ctx.scope
  let textIndices := indices.filter (fun i =>
    (strToLower (chunkAt chunks i).content_type) ≠ "table")
  let scoredText0 := sortByScoreDesc (textIndices.map (fun i =>
    ⟨i, cosineSim qEmbedding (embAt embeddings i)⟩))
  sortByScoreDesc (scoredText0.map (moduleBoostText ctx chunks))

/-- The table channel after base scoring, module boosts, the
section-proximity boost and both stale-content penalties (lines 2184-2401). -/
def scoredTablesFinal (chunks : List Chunk) (embeddings : List (List ℚ))
    (qEmbedding : List ℚ) (ctx : QueryCtx) : List Entry :=
  let indices := indicesAfterScopeFallback chunks embeddings.length ctx.scope
  let tableIndices := indices.filter (fun i =>
    (strToLower (chunkAt chunks i).content_type) = "table")
  let scoredTables0 := sortByScoreDesc (tableIndices.map (fun i =>
    ⟨i, cosineSim qEmbedding (embAt embeddings i)⟩))
  let scoredTables1 := sortByScoreDesc (scoredTables0.map (moduleBoostTable ctx chunks))
  let scoredText := scoredTextFinal chunks embeddings qEmbedding ctx
  let hasModule4DrAnchor := (anchorDocSectionMap chunks scoredText).any isModule4DrAnchor
  let hasModule1TptAnchor := (anchorDocSectionMap chunks scoredText).any isModule1TptAnchor
  let scoredTables2 := sectionProximityStage chunks scoredText scoredTables1
  let scoredTables3 := stalePedsDrStage chunks ctx hasModule4DrAnchor scoredTables2
  staleTptStage chunks ctx hasModule1TptAnchor scoredTables3

/-- The merged candidate list before dedup (lines 2404-2484): per-channel
caps, merge by score, then the two force-include passes. -/
def mergedCandidates (chunks : List Chunk) (embeddings : List (List ℚ))
    (qEmbedding : List ℚ) (ctx : QueryCtx) : List Entry :=
  let scoredText := scoredTextFinal chunks embeddings qEmbedding ctx
  let topText := scoredText.take 20
  let topTables := (scoredTablesFinal chunks embeddings qEmbedding ctx).take 8
  let combined0 := sortByScoreDesc (topText ++ topTables)
  let combined1 := forceIncludeM4Stage chunks ctx scoredText combined0
  forceIncludeM1Stage chunks ctx scoredText combined1

/-- The ranking pipeline from the scope filter to the deduplicated merged
candidate list (lines 2147-2495). -/
def rankedCandidates (chunks : List Chunk) (embeddings : List (List ℚ))
    (qEmbedding : List ℚ) (ctx : QueryCtx) : List Entry :=
  dedupByChunkId chunks (mergedCandidates chunks embeddings qEmbedding ctx) []

/-- The main handler (lines 2056-2564), from request validation to the
response.  The query embedding is an input (it is produced by an external
provider whose failure aborts the query before ranking); the table store
stands for the attachment directory tree.  The `.error` results model the
400/500 responses, including the `TypeError` thrown inside the channel
filters when an embedding index has no chunk record. -/
def tbRagHandler (store : String → Option (List RawRow)) (chunks : List Chunk)
    (embeddings : List (List ℚ)) (qEmbedding : List ℚ) (body : ReqBody) :
    Except String RagResponse :=
  let question := body.question
  let finalTopK0 : Int := body.top_k.getD 8
  let tableRowLimit : Int := match body.table_row_limit with
    | some n => max 1 (min 500 n)
    | none => 150
  let intentFlags := inferIntentFlags question
  let scope := match body.scope with
    | some s => if s ≠ "" then some s else inferScopeFromQuestion question intentFlags
    | none => inferScopeFromQuestion question intentFlags
  let ctx : QueryCtx :=
    { scope := scope
      isPediatric := intentFlags.contains "special_populations"
      hasDrugResistanceIntent := intentFlags.contains "drug_resistance"
      hasTptIntent := intentFlags.contains "tpt" }
  if jsTrim question = "" then
    .error "Missing or empty question string in request body."
  else
    let finalTopK1 : Int := max 1 (min finalTopK0 8)
    if embeddings.isEmpty || chunks.isEmpty then
      .error "RAG store is empty or failed to load."
    else
      let finalTopK : Int := min finalTopK1 (embeddings.length : Int)
      if chunks.length < embeddings.length then
        .error "TypeError: cannot read properties of undefined"
      else
        let deduped := rankedCandidates chunks embeddings qEmbedding ctx
        let top := deduped.take finalTopK.toNat
        let results := top.map (fun e =>
          mkResult body.include_table_rows
            (enrichChunkWithTable store (chunkAt chunks e.index)
              { includeTableRows := body.include_table_rows
                tableRowLimit := some tableRowLimit })
            e.score)
        .ok { question := question, top_k := finalTopK, scope := scope,
              results := results }

/-- A concrete `RagResult`, used only to state a closed instance of the
result-count bounds. -/
def c1SampleResult : RagResult :=
  { doc_id := "", guideline_title := "", year := "", chunk_id := "c",
    section_path := "", text := "", content_type := "", attachment_id := "",
    attachment_path := "", table_subtype := none, table_text := none,
    table_rows := none, table_row_count := none, score := 1 }

/-- A concrete `RagResponse`, used only to state a closed instance of the
result-count bounds. -/
def c1SampleResponse : RagResponse :=
  { question := "q", top_k := 1, scope := none, results := [c1SampleResult] }

/-! # Proofs -/

attribute [local semireducible] Rat.mul Rat.inv Rat.add Rat.sub Rat.ofScientific

/-! ## Properties of `normalize` (claim C7) -/

lemma sumSquares_nonneg (vec : List ℝ) : 0 ≤ sumSquares vec := by
  induction vec with
  | nil => simp [sumSquares]
  | cons v vs ih =>
      simp only [sumSquares, List.map_cons, List.sum_cons]
      have : 0 ≤ v * v := mul_self_nonneg v
      have ih' : 0 ≤ (vs.map (fun v => v * v)).sum := ih
      linarith

lemma sumSquares_eq_zero_iff (vec : List ℝ) :
    sumSquares vec = 0 ↔ ∀ v ∈ vec, v = 0 := by
  induction vec with
  | nil => simp [sumSquares]
  | cons v vs ih =>
      simp only [sumSquares, List.map_cons, List.sum_cons] at *
      constructor
      · intro h
        have h1 : 0 ≤ v * v := mul_self_nonneg v
        have h2 : 0 ≤ (vs.map (fun v => v * v)).sum := by
          have := sumSquares_nonneg vs
          simpa [sumSquares] using this
        have hv : v * v = 0 := by linarith
        have hs : (vs.map (fun v => v * v)).sum = 0 := by linarith
        have hv0 : v = 0 := mul_self_eq_zero.mp hv
        intro x hx
        rcases List.mem_cons.mp hx with h | h
        · exact h ▸ hv0
        · exact ih.mp hs x h
      · intro h
        have hv0 : v = 0 := h v (List.mem_cons_self v vs)
        have hs : (vs.map (fun v => v * v)).sum = 0 :=
          ih.mpr (fun x hx => h x (List.mem_cons_of_mem v hx))
        simp [hv0, hs]

lemma sumSquares_map_div (vec : List ℝ) (c : ℝ) :
    sumSquares (vec.map (fun v => v / c)) = sumSquares vec / (c * c) := by
  induction vec with
  | nil => simp [sumSquares]
  | cons v vs ih =>
      simp only [sumSquares, List.map_cons, List.sum_cons] at *
      rw [ih]
      field_simp

lemma normalize_sumSquares (vec : List ℝ) (h : sumSquares vec ≠ 0) :
    sumSquares (normalize vec) = 1 := by
  have hnn := sumSquares_nonneg vec
  have hpos : 0 < sumSquares vec := lt_of_le_of_ne hnn (Ne.symm h)
  have hsqrt : Real.sqrt (sumSquares vec) ≠ 0 := ne_of_gt (Real.sqrt_pos.mpr hpos)
  unfold normalize
  simp only [hsqrt, if_false]
  rw [sumSquares_map_div, Real.mul_self_sqrt hnn]
  field_simp

/-- C7 (confirmed).  For every input vector, `normalize` returns a vector of
Euclidean norm one or the all-zero vector, and the result is all-zero exactly
when the input was degenerate (zero norm; in exact real arithmetic the
source's non-finite guard can only fire together with this case). -/
theorem normalize_norm_one_or_zero (vec : List ℝ) :
    (Real.sqrt (sumSquares (normalize vec)) = 1 ∨ ∀ x ∈ normalize vec, x = 0) ∧
    ((∀ x ∈ normalize vec, x = 0) ↔ sumSquares vec = 0) := by
  by_cases h : sumSquares vec = 0
  · have hz : normalize vec = vec.map (fun _ => 0) := by
      unfold normalize
      rw [h, Real.sqrt_zero, if_pos rfl]
    have hall : ∀ x ∈ normalize vec, x = 0 := by
      intro x hx
      rw [hz] at hx
      obtain ⟨y, _, rfl⟩ := List.mem_map.mp hx
      rfl
    refine ⟨Or.inr hall, ⟨fun _ => h, fun _ => hall⟩⟩
  · have h1 := normalize_sumSquares vec h
    constructor
    · left
      rw [h1, Real.sqrt_one]
    · constructor
      · intro hzero
        have : sumSquares (normalize vec) = 0 :=
          (sumSquares_eq_zero_iff (normalize vec)).mpr hzero
        rw [h1] at this
        norm_num at this
      · intro hzero
        exact absurd hzero h

/-! ## Sorting lemmas -/

lemma insertDesc_perm (e : Entry) (l : List Entry) :
    (insertDesc e l).Perm (e :: l) := by
  induction l with
  | nil => exact List.Perm.refl _
  | cons x xs ih =>
      unfold insertDesc
      by_cases h : x.score < e.score
      · simp only [if_pos h]
        exact List.Perm.refl _
      · simp only [if_neg h]
        exact (ih.cons x).trans (List.Perm.swap e x xs)

lemma foldl_insertDesc_perm :
    ∀ (l acc : List Entry),
      (l.foldl (fun a e => insertDesc e a) acc).Perm (acc ++ l) := by
  intro l
  induction l with
  | nil => intro acc; simp
  | cons e rest ih =>
      intro acc
      have h1 := ih (insertDesc e acc)
      have h2 : (insertDesc e acc ++ rest).Perm ((e :: acc) ++ rest) :=
        (insertDesc_perm e acc).append_right rest
      have h3 : ((e :: acc) ++ rest).Perm (acc ++ e :: rest) := by
        simpa using List.perm_middle.symm
      simpa using (h1.trans h2).trans h3

lemma sortByScoreDesc_perm (l : List Entry) : (sortByScoreDesc l).Perm l := by
  simpa [sortByScoreDesc] using foldl_insertDesc_perm l []

lemma mem_sortByScoreDesc {e : Entry} {l : List Entry} :
    e ∈ sortByScoreDesc l ↔ e ∈ l :=
  (sortByScoreDesc_perm l).mem_iff

lemma length_sortByScoreDesc (l : List Entry) :
    (sortByScoreDesc l).length = l.length :=
  (sortByScoreDesc_perm l).length_eq

lemma insertDesc_sorted {e : Entry} {l : List Entry} (h : SortedDesc l) :
    SortedDesc (insertDesc e l) := by
  induction l with
  | nil => simp [insertDesc, SortedDesc]
  | cons x xs ih =>
      have hx : ∀ b ∈ xs, b.score ≤ x.score := (List.pairwise_cons.mp h).1
      have hxs : SortedDesc xs := (List.pairwise_cons.mp h).2
      unfold insertDesc
      by_cases hlt : x.score < e.score
      · simp only [if_pos hlt]
        refine List.pairwise_cons.mpr ⟨?_, h⟩
        intro b hb
        rcases List.mem_cons.mp hb with rfl | hb
        · exact le_of_lt hlt
        · exact le_trans (hx b hb) (le_of_lt hlt)
      · simp only [if_neg hlt]
        refine List.pairwise_cons.mpr ⟨?_, ih hxs⟩
        intro b hb
        rcases List.mem_cons.mp ((insertDesc_perm e xs).mem_iff.mp hb) with h1 | h1
        · exact h1 ▸ le_of_not_lt hlt
        · exact hx b h1

lemma sortByScoreDesc_sorted (l : List Entry) : SortedDesc (sortByScoreDesc l) := by
  suffices h : ∀ (l acc : List Entry), SortedDesc acc →
      SortedDesc (l.foldl (fun a e => insertDesc e a) acc) by
    exact h l [] (List.Pairwise.nil)
  intro l
  induction l with
  | nil => intro acc hacc; simpa
  | cons e rest ih =>
      intro acc hacc
      exact ih (insertDesc e acc) (insertDesc_sorted hacc)

lemma le_maxTextScore_of_sorted {l : List Entry} (h : SortedDesc l) :
    ∀ e ∈ l, e.score ≤ maxTextScore l := by
  cases l with
  | nil => intro e he; cases he
  | cons x xs =>
      intro e he
      rcases List.mem_cons.mp he with rfl | he
      · exact le_refl _
      · exact (List.pairwise_cons.mp h).1 e he

/-! ## Index preservation through the score-adjustment passes -/

lemma moduleBoostText_index (ctx : QueryCtx) (chunks : List Chunk) (e : Entry) :
    (moduleBoostText ctx chunks e).index = e.index := rfl

lemma moduleBoostTable_index (ctx : QueryCtx) (chunks : List Chunk) (e : Entry) :
    (moduleBoostTable ctx chunks e).index = e.index := rfl

lemma sectionProximityBoost_index (chunks : List Chunk) (anchors : List Anchor)
    (maxText : ℚ) (e : Entry) :
    (sectionProximityBoost chunks anchors maxText e).index = e.index := by
  simp only [sectionProximityBoost]
  split_ifs <;> rfl

lemma stalePedsDrPenalty_index (chunks : List Chunk) (e : Entry) :
    (stalePedsDrPenalty chunks e).index = e.index := by
  simp only [stalePedsDrPenalty]
  split_ifs <;> rfl

lemma staleTptPenalty_index (chunks : List Chunk) (e : Entry) :
    (staleTptPenalty chunks e).index = e.index := by
  simp only [staleTptPenalty]
  split_ifs <;> rfl

lemma forall_mem_sortByScoreDesc {p : Entry → Prop} {l : List Entry}
    (h : ∀ e ∈ l, p e) : ∀ e ∈ sortByScoreDesc l, p e :=
  fun e he => h e (mem_sortByScoreDesc.mp he)

lemma forall_index_map {p : Nat → Prop} {f : Entry → Entry}
    (hf : ∀ e, (f e).index = e.index) {l : List Entry}
    (h : ∀ e ∈ l, p e.index) : ∀ e ∈ l.map f, p e.index := by
  intro e he
  obtain ⟨x, hx, rfl⟩ := List.mem_map.mp he
  rw [hf]
  exact h x hx

lemma forall_mem_take {p : Entry → Prop} {l : List Entry} (n : Nat)
    (h : ∀ e ∈ l, p e) : ∀ e ∈ l.take n, p e :=
  fun e he => h e (List.mem_of_mem_take he)

/-! ## The force-include loop -/

lemma mem_forceInclude :
    ∀ (cands combined : List Entry) (n : Nat),
      ∀ e ∈ forceInclude cands combined n, e ∈ combined ∨ e ∈ cands := by
  intro cands
  induction cands with
  | nil =>
      intro combined n e he
      exact Or.inl (by simpa [forceInclude] using he)
  | cons c rest ih =>
      intro combined n e he
      cases n with
      | zero => exact Or.inl (by simpa [forceInclude] using he)
      | succ m =>
          unfold forceInclude at he
          by_cases hp : combined.any (fun x => x.index == c.index)
          · rw [if_pos hp] at he
            rcases ih combined (m + 1) e he with h | h
            · exact Or.inl h
            · exact Or.inr (List.mem_cons_of_mem c h)
          · rw [if_neg hp] at he
            rcases ih (combined ++ [c]) m e he with h | h
            · rcases List.mem_append.mp h with h | h
              · exact Or.inl h
              · have hec : e = c := List.mem_singleton.mp h
                subst hec
                exact Or.inr (List.mem_cons_self e rest)
            · exact Or.inr (List.mem_cons_of_mem c h)

lemma forceInclude_append :
    ∀ (cands combined : List Entry) (n : Nat),
      ∃ added : List Entry,
        forceInclude cands combined n = combined ++ added ∧
        added.length ≤ n ∧
        (∀ a ∈ added, a ∈ cands ∧ ∀ e ∈ combined, e.index ≠ a.index) ∧
        (added.length < n →
          ∀ c ∈ cands, ∃ e ∈ forceInclude cands combined n, e.index = c.index) := by
  intro cands
  induction cands with
  | nil =>
      intro combined n
      refine ⟨[], by simp [forceInclude], by simp, by simp, ?_⟩
      intro _ c hc
      cases hc
  | cons c rest ih =>
      intro combined n
      cases n with
      | zero =>
          refine ⟨[], by simp [forceInclude], le_refl 0, by simp, ?_⟩
          intro h
          exact absurd h (by simp)
      | succ m =>
          by_cases hp : combined.any (fun x => x.index == c.index)
          · obtain ⟨added, heq, hlen, hprops, hexh⟩ := ih combined (m + 1)
            have hout : forceInclude (c :: rest) combined (m + 1) =
                forceInclude rest combined (m + 1) := by
              simp only [forceInclude]
              rw [if_pos hp]
            refine ⟨added, by rw [hout]; exact heq, hlen, ?_, ?_⟩
            · intro a ha
              obtain ⟨hc, hni⟩ := hprops a ha
              exact ⟨List.mem_cons_of_mem c hc, hni⟩
            · intro hlt x hx
              rcases List.mem_cons.mp hx with rfl | hx
              · obtain ⟨e, he, hidx⟩ := List.any_eq_true.mp hp
                refine ⟨e, ?_, by simpa using hidx⟩
                rw [hout, heq]
                exact List.mem_append_left added he
              · obtain ⟨e, he, hidx⟩ := hexh hlt x hx
                exact ⟨e, by rw [hout]; exact he, hidx⟩
          · obtain ⟨added, heq, hlen, hprops, hexh⟩ := ih (combined ++ [c]) m
            have hout : forceInclude (c :: rest) combined (m + 1) =
                forceInclude rest (combined ++ [c]) m := by
              simp only [forceInclude]
              rw [if_neg hp]
            have hnotin : ∀ e ∈ combined, e.index ≠ c.index := by
              intro e he heq2
              exact hp (List.any_eq_true.mpr ⟨e, he, by simp [heq2]⟩)
            refine ⟨c :: added, ?_, by simpa using Nat.succ_le_succ hlen, ?_, ?_⟩
            · rw [hout, heq]
              simp
            · intro a ha
              rcases List.mem_cons.mp ha with rfl | ha
              · exact ⟨List.mem_cons_self a rest, hnotin⟩
              · obtain ⟨hc, hni⟩ := hprops a ha
                exact ⟨List.mem_cons_of_mem c hc,
                  fun e he => hni e (List.mem_append_left [c] he)⟩
            · intro hlt x hx
              have hlt2 : added.length < m := by
                have : added.length + 1 < m + 1 := by simpa using hlt
                omega
              rcases List.mem_cons.mp hx with rfl | hx
              · refine ⟨x, ?_, rfl⟩
                rw [hout, heq]
                exact List.mem_append_left added (List.mem_append_right combined
                  (List.mem_singleton_self x))
              · obtain ⟨e, he, hidx⟩ := hexh hlt2 x hx
                exact ⟨e, by rw [hout]; exact he, hidx⟩

/-! ## The dedup loop -/

lemma dedup_subset (chunks : List Chunk) :
    ∀ (l : List Entry) (seen : List String),
      ∀ e ∈ dedupByChunkId chunks l seen, e ∈ l := by
  intro l
  induction l with
  | nil => intro seen e he; simp [dedupByChunkId] at he
  | cons x rest ih =>
      intro seen e he
      unfold dedupByChunkId at he
      by_cases hc : (entryChunkId chunks x = "" || seen.contains (entryChunkId chunks x) : Bool)
      · rw [if_pos hc] at he
        exact List.mem_cons_of_mem x (ih seen e he)
      · rw [if_neg hc] at he
        rcases List.mem_cons.mp he with rfl | he
        · exact List.mem_cons_self e rest
        · exact List.mem_cons_of_mem x
            (ih (entryChunkId chunks x :: seen) e he)

lemma dedup_strong (chunks : List Chunk) :
    ∀ (l : List Entry) (seen : List String),
      (∀ e ∈ dedupByChunkId chunks l seen,
        entryChunkId chunks e ≠ "" ∧ entryChunkId chunks e ∉ seen) ∧
      (dedupByChunkId chunks l seen).Pairwise
        (fun a b => entryChunkId chunks a ≠ entryChunkId chunks b) := by
  intro l
  induction l with
  | nil => intro seen; constructor <;> simp [dedupByChunkId]
  | cons x rest ih =>
      intro seen
      unfold dedupByChunkId
      by_cases hc : (entryChunkId chunks x = "" ||
          seen.contains (entryChunkId chunks x) : Bool)
      · rw [if_pos hc]
        exact ih seen
      · rw [if_neg hc]
        have hc2 : ¬(entryChunkId chunks x = "" ∨ entryChunkId chunks x ∈ seen) := by
          simpa using hc
        obtain ⟨ihall, ihpw⟩ := ih (entryChunkId chunks x :: seen)
        constructor
        · intro e he
          rcases List.mem_cons.mp he with rfl | he
          · exact ⟨fun h => hc2 (Or.inl h), fun hmem => hc2 (Or.inr hmem)⟩
          · obtain ⟨h1, h2⟩ := ihall e he
            exact ⟨h1, fun hmem => h2 (List.mem_cons_of_mem _ hmem)⟩
        · refine List.pairwise_cons.mpr ⟨?_, ihpw⟩
          intro b hb heq
          obtain ⟨_, h2⟩ := ihall b hb
          exact h2 (by rw [← heq]; exact List.mem_cons_self _ seen)

lemma dedup_all_blank (chunks : List Chunk) :
    ∀ (l : List Entry) (seen : List String),
      (∀ e ∈ l, entryChunkId chunks e = "") →
      dedupByChunkId chunks l seen = [] := by
  intro l
  induction l with
  | nil => intro seen _; rfl
  | cons x rest ih =>
      intro seen hall
      unfold dedupByChunkId
      have hx : entryChunkId chunks x = "" := hall x (List.mem_cons_self x rest)
      rw [if_pos (by simp [hx])]
      exact ih seen (fun e he => hall e (List.mem_cons_of_mem x he))

lemma dedup_ne_nil (chunks : List Chunk) (l : List Entry) (hne : l ≠ [])
    (hids : ∀ e ∈ l, entryChunkId chunks e ≠ "") :
    dedupByChunkId chunks l [] ≠ [] := by
  cases l with
  | nil => exact absurd rfl hne
  | cons x rest =>
      unfold dedupByChunkId
      have hx : entryChunkId chunks x ≠ "" := hids x (List.mem_cons_self x rest)
      rw [if_neg (by simp [hx])]
      simp

/-! ## Scope priority (claim C6) -/

lemma topicCandidates_sub (flags : List String) :
    ∀ t ∈ topicCandidates flags, t ∈ topicPriority := by
  intro t ht
  simp only [topicCandidates, List.mem_append] at ht
  rcases ht with ((h | h) | h) | h <;>
    · split_ifs at h <;> simp_all [topicPriority]

/-- C6 (confirmed).  Whenever the intent flags yield more than one topic
candidate, `inferScopeFromQuestion` returns the first candidate in the fixed
priority order treatment > diagnosis > prevention > screening (the keyword
fallback is not consulted). -/
theorem inferScope_priority (question : String) (flags : List String)
    (t1 t2 : String) (h1 : t1 ∈ topicCandidates flags)
    (h2 : t2 ∈ topicCandidates flags) (hne : t1 ≠ t2) :
    inferScopeFromQuestion question flags =
      topicPriority.find? (fun t => (topicCandidates flags).contains t) := by
  have hsome : (topicPriority.find? (fun t => (topicCandidates flags).contains t)).isSome := by
    rw [List.find?_isSome]
    exact ⟨t1, topicCandidates_sub flags t1 h1, by simpa using h1⟩
  obtain ⟨t, ht⟩ := Option.isSome_iff_exists.mp hsome
  simp only [inferScopeFromQuestion, ht]

/-- Witness for C6 at a concrete input: flags implying both treatment and
diagnosis resolve to treatment. -/
theorem inferScope_priority_witness :
    "diagnosis" ∈ topicCandidates ["diagnostic_workup", "regimen_selection"] ∧
    "treatment" ∈ topicCandidates ["diagnostic_workup", "regimen_selection"] ∧
    inferScopeFromQuestion "how to work this up and treat"
      ["diagnostic_workup", "regimen_selection"] = some "treatment" := by
  refine ⟨by decide, by decide, ?_⟩
  have h := inferScope_priority "how to work this up and treat"
    ["diagnostic_workup", "regimen_selection"] "diagnosis" "treatment"
    (by decide) (by decide) (by decide)
  rw [h]
  decide

/-! ## Scope-filter fallback (claim C3) -/

/-- C3 (confirmed).  When the scope filter leaves no index, retrieval uses
the full unfiltered index set, so a non-empty corpus never yields an empty
candidate set due to scope narrowing alone. -/
theorem scope_fallback (chunks : List Chunk) (embCount : Nat)
    (scope : Option String)
    (h : filterIndicesByScope (List.range embCount) chunks scope = []) :
    indicesAfterScopeFallback chunks embCount scope = List.range embCount ∧
    (0 < embCount → indicesAfterScopeFallback chunks embCount scope ≠ []) := by
  have h1 : indicesAfterScopeFallback chunks embCount scope = List.range embCount := by
    unfold indicesAfterScopeFallback
    simp [h]
  refine ⟨h1, fun hpos => ?_⟩
  rw [h1]
  simp only [ne_eq, List.range_eq_nil]
  omega

/-- Witness for C3: a treatment-scoped query over a corpus whose only chunk
carries an explicit `diagnosis` scope tag falls back to the full corpus. -/
theorem scope_fallback_witness :
    filterIndicesByScope (List.range 1) [{ scope := "diagnosis" }]
      (some "treatment") = [] ∧
    indicesAfterScopeFallback [{ scope := "diagnosis" }] 1 (some "treatment") = [0] := by
  constructor
  · decide
  · have h := scope_fallback [{ scope := "diagnosis" }] 1 (some "treatment") (by decide)
    rw [h.1]
    decide

/-! ## Stale-content penalties (claim C2) -/

/-- C2 (confirmed).  Under scope `treatment` with the pediatric and
drug-resistance flags and a Module 4 drug-resistant-treatment anchor, the
stale pass multiplies the score of every Module 5 pediatric regimen/decision
table candidate by 0.97 and leaves every other table entry unchanged;
symmetrically for scope `prevention` with the TPT flag, a Module 1 TPT
anchor, and pediatric TPT regimen/decision tables in the legacy sections. -/
theorem stale_penalty_c2 :
    (∀ (chunks : List Chunk) (ctx : QueryCtx) (hasM4 : Bool) (tables : List Entry),
      ctx.isTreatment = true → ctx.isPediatric = true →
      ctx.hasDrugResistanceIntent = true → hasM4 = true →
      ∀ e ∈ tables,
        stalePedsDrPenalty chunks e ∈ stalePedsDrStage chunks ctx hasM4 tables ∧
        (isPedsRegimenDecisionTable (chunkAt chunks e.index) = true →
          stalePedsDrPenalty chunks e = ⟨e.index, e.score * (97 / 100)⟩) ∧
        (isPedsRegimenDecisionTable (chunkAt chunks e.index) = false →
          stalePedsDrPenalty chunks e = e)) ∧
    (∀ (chunks : List Chunk) (ctx : QueryCtx) (hasM1 : Bool) (tables : List Entry),
      ctx.isPrevention = true → ctx.hasTptIntent = true → hasM1 = true →
      ∀ e ∈ tables,
        staleTptPenalty chunks e ∈ staleTptStage chunks ctx hasM1 tables ∧
        ((isPedsRegimenDecisionTable (chunkAt chunks e.index) &&
            inLegacyTptSections (chunkAt chunks e.index)) = true →
          staleTptPenalty chunks e = ⟨e.index, e.score * (97 / 100)⟩) ∧
        ((isPedsRegimenDecisionTable (chunkAt chunks e.index) &&
            inLegacyTptSections (chunkAt chunks e.index)) = false →
          staleTptPenalty chunks e = e)) := by
  constructor
  · intro chunks ctx hasM4 tables h1 h2 h3 h4 e he
    refine ⟨?_, ?_, ?_⟩
    · unfold stalePedsDrStage
      rw [h1, h2, h3, h4]
      simp only [Bool.and_self, if_pos]
      exact mem_sortByScoreDesc.mpr (List.mem_map_of_mem _ he)
    · intro hq
      unfold stalePedsDrPenalty
      rw [if_pos hq]
    · intro hq
      unfold stalePedsDrPenalty
      rw [hq]
      simp
  · intro chunks ctx hasM1 tables h1 h2 h3 e he
    refine ⟨?_, ?_, ?_⟩
    · unfold staleTptStage
      rw [h1, h2, h3]
      simp only [Bool.and_self, if_pos]
      exact mem_sortByScoreDesc.mpr (List.mem_map_of_mem _ he)
    · intro hq
      unfold staleTptPenalty
      simp only [hq, if_pos]
    · intro hq
      unfold staleTptPenalty
      simp only [hq]
      simp

/-- Witness for C2 at concrete inputs for both penalty groups. -/
theorem stale_penalty_c2_witness :
    (⟨0, (97 : ℚ) / 100⟩ : Entry) ∈
      stalePedsDrStage
        [{ doc_id := "module5-pediatric", content_type := "table",
           table_subtype := "regimen" }]
        { scope := some "treatment", isPediatric := true,
          hasDrugResistanceIntent := true, hasTptIntent := false }
        true [⟨0, 1⟩] ∧
    (⟨0, (97 : ℚ) / 100⟩ : Entry) ∈
      staleTptStage
        [{ doc_id := "module5-pediatric", section_path := "3.3.5 tpt",
           content_type := "table", table_subtype := "decision" }]
        { scope := some "prevention", isPediatric := false,
          hasDrugResistanceIntent := false, hasTptIntent := true }
        true [⟨0, 1⟩] := by
  constructor
  · have h := stale_penalty_c2.1
      [{ doc_id := "module5-pediatric", content_type := "table",
         table_subtype := "regimen" }]
      { scope := some "treatment", isPediatric := true,
        hasDrugResistanceIntent := true, hasTptIntent := false }
      true [⟨0, 1⟩] (by decide) rfl rfl rfl ⟨0, 1⟩ (by decide)
    have heq2 : stalePedsDrPenalty
        [{ doc_id := "module5-pediatric", content_type := "table",
           table_subtype := "regimen" }] (⟨0, 1⟩ : Entry) =
        ⟨0, (97 : ℚ) / 100⟩ := by decide
    rw [← heq2]
    exact h.1
  · have h := stale_penalty_c2.2
      [{ doc_id := "module5-pediatric", section_path := "3.3.5 tpt",
         content_type := "table", table_subtype := "decision" }]
      { scope := some "prevention", isPediatric := false,
        hasDrugResistanceIntent := false, hasTptIntent := true }
      true [⟨0, 1⟩] (by decide) rfl rfl ⟨0, 1⟩ (by decide)
    have heq2 : staleTptPenalty
        [{ doc_id := "module5-pediatric", section_path := "3.3.5 tpt",
           content_type := "table", table_subtype := "decision" }] (⟨0, 1⟩ : Entry) =
        ⟨0, (97 : ℚ) / 100⟩ := by decide
    rw [← heq2]
    exact h.1

/-! ## Section-proximity boost (claim C4) -/

lemma neighbor_doc_ne (chunks : List Chunk) (scoredText : List Entry) (c : Chunk)
    (h : isNeighborTable (anchorDocSectionMap chunks scoredText) c = true) :
    c.doc_id ≠ "" := by
  unfold isNeighborTable at h
  obtain ⟨a, ha, hcond⟩ := List.any_eq_true.mp h
  have hdoc : a.doc_id = c.doc_id := by
    have h2 := hcond
    simp only [Bool.and_eq_true] at h2
    simpa using h2.1
  have hane : a.doc_id ≠ "" := by
    have := (List.mem_filter.mp ha).2
    simpa using this
  rw [← hdoc]
  exact hane

/-- C4 (confirmed).  After the section-proximity pass, every table candidate
sharing a document id and at least one section key with one of the top (up
to ten) prose anchors appears with a score of at least 0.98 times the top
prose score, while every non-neighboring candidate keeps its previous score;
under the sortedness invariant the top prose score bounds every prose score. -/
theorem section_proximity_c4 (chunks : List Chunk) (scoredText tables : List Entry)
    (hsorted : SortedDesc scoredText) :
    (∀ e ∈ tables,
      (isNeighborTable (anchorDocSectionMap chunks scoredText)
          (chunkAt chunks e.index) = true →
        sectionProximityBoost chunks (anchorDocSectionMap chunks scoredText)
            (maxTextScore scoredText) e ∈
          sectionProximityStage chunks scoredText tables ∧
        maxTextScore scoredText * (98 / 100) ≤
          (sectionProximityBoost chunks (anchorDocSectionMap chunks scoredText)
            (maxTextScore scoredText) e).score) ∧
      (isNeighborTable (anchorDocSectionMap chunks scoredText)
          (chunkAt chunks e.index) = false →
        sectionProximityBoost chunks (anchorDocSectionMap chunks scoredText)
            (maxTextScore scoredText) e ∈
          sectionProximityStage chunks scoredText tables ∧
        sectionProximityBoost chunks (anchorDocSectionMap chunks scoredText)
          (maxTextScore scoredText) e = e)) ∧
    (∀ t ∈ scoredText, t.score ≤ maxTextScore scoredText) := by
  refine ⟨?_, le_maxTextScore_of_sorted hsorted⟩
  intro e he
  have hmem : sectionProximityBoost chunks (anchorDocSectionMap chunks scoredText)
      (maxTextScore scoredText) e ∈ sectionProximityStage chunks scoredText tables := by
    unfold sectionProximityStage
    exact mem_sortByScoreDesc.mpr (List.mem_map_of_mem _ he)
  constructor
  · intro hn
    refine ⟨hmem, ?_⟩
    have hdoc := neighbor_doc_ne chunks scoredText (chunkAt chunks e.index) hn
    unfold sectionProximityBoost
    rw [if_neg hdoc, if_pos hn]
    exact le_max_right _ _
  · intro hn
    refine ⟨hmem, ?_⟩
    unfold sectionProximityBoost
    by_cases hdoc : (chunkAt chunks e.index).doc_id = ""
    · rw [if_pos hdoc]
    · rw [if_neg hdoc, hn]
      simp

/-- Witness for C4: a table chunk sharing document id and section key with
the single prose anchor is lifted to 0.98 of the top prose score. -/
theorem section_proximity_c4_witness :
    (⟨1, (49 : ℚ) / 50⟩ : Entry) ∈
      sectionProximityStage
        [{ doc_id := "d", section_path := "s1", content_type := "prose" },
         { doc_id := "d", section_path := "s1", content_type := "table" }]
        [⟨0, 1⟩] [⟨1, 1 / 2⟩] := by
  have h := (section_proximity_c4
    [{ doc_id := "d", section_path := "s1", content_type := "prose" },
     { doc_id := "d", section_path := "s1", content_type := "table" }]
    [⟨0, 1⟩] [⟨1, 1 / 2⟩] (by simp [SortedDesc])).1 ⟨1, 1 / 2⟩ (by decide)
  have h2 := (h.1 (by decide)).1
  have heq : sectionProximityBoost
      [{ doc_id := "d", section_path := "s1", content_type := "prose" },
       { doc_id := "d", section_path := "s1", content_type := "table" }]
      (anchorDocSectionMap
        [{ doc_id := "d", section_path := "s1", content_type := "prose" },
         { doc_id := "d", section_path := "s1", content_type := "table" }]
        [⟨0, 1⟩])
      (maxTextScore [⟨0, 1⟩]) ⟨1, 1 / 2⟩ = ⟨1, (49 : ℚ) / 50⟩ := by decide
  rw [← heq]
  exact h2

/-! ## Force-include quotas (claim C5) -/

/-- C5 (confirmed).  Under the pediatric drug-resistant treatment guard, the
merge adds up to two Module 4 drug-resistant-treatment prose candidates not
already present (by index) in the merged list, drawn from the full prose
channel regardless of the per-channel caps; when fewer than two are added,
every candidate index is already represented.  Symmetrically for the Module
1 TPT candidates under the prevention/TPT guard. -/
theorem force_include_c5 :
    (∀ (chunks : List Chunk) (ctx : QueryCtx) (scoredText combined : List Entry),
      ctx.isTreatment = true → ctx.isPediatric = true →
      ctx.hasDrugResistanceIntent = true →
      (forceIncludeM4Stage chunks ctx scoredText combined).Perm
        (forceInclude (scoredText.filter (isModule4DrProse chunks)) combined 2) ∧
      ∃ added : List Entry,
        forceInclude (scoredText.filter (isModule4DrProse chunks)) combined 2 =
          combined ++ added ∧
        added.length ≤ 2 ∧
        (∀ a ∈ added, isModule4DrProse chunks a = true ∧ a ∈ scoredText ∧
          ∀ e ∈ combined, e.index ≠ a.index) ∧
        (added.length < 2 →
          ∀ c ∈ scoredText, isModule4DrProse chunks c = true →
            ∃ e ∈ forceIncludeM4Stage chunks ctx scoredText combined,
              e.index = c.index)) ∧
    (∀ (chunks : List Chunk) (ctx : QueryCtx) (scoredText combined : List Entry),
      ctx.isPrevention = true → ctx.hasTptIntent = true →
      (forceIncludeM1Stage chunks ctx scoredText combined).Perm
        (forceInclude (scoredText.filter (isModule1TptProse chunks)) combined 2) ∧
      ∃ added : List Entry,
        forceInclude (scoredText.filter (isModule1TptProse chunks)) combined 2 =
          combined ++ added ∧
        added.length ≤ 2 ∧
        (∀ a ∈ added, isModule1TptProse chunks a = true ∧ a ∈ scoredText ∧
          ∀ e ∈ combined, e.index ≠ a.index) ∧
        (added.length < 2 →
          ∀ c ∈ scoredText, isModule1TptProse chunks c = true →
            ∃ e ∈ forceIncludeM1Stage chunks ctx scoredText combined,
              e.index = c.index)) := by
  constructor
  · intro chunks ctx scoredText combined h1 h2 h3
    have hstage : forceIncludeM4Stage chunks ctx scoredText combined =
        sortByScoreDesc
          (forceInclude (scoredText.filter (isModule4DrProse chunks)) combined 2) := by
      unfold forceIncludeM4Stage
      rw [h1, h2, h3]
      simp
    refine ⟨by rw [hstage]; exact sortByScoreDesc_perm _, ?_⟩
    obtain ⟨added, heq, hlen, hprops, hexh⟩ :=
      forceInclude_append (scoredText.filter (isModule4DrProse chunks)) combined 2
    refine ⟨added, heq, hlen, ?_, ?_⟩
    · intro a ha
      obtain ⟨hc, hni⟩ := hprops a ha
      obtain ⟨hmem, hpred⟩ := List.mem_filter.mp hc
      exact ⟨hpred, hmem, hni⟩
    · intro hlt c hc hpred
      obtain ⟨e, he, hidx⟩ := hexh hlt c (List.mem_filter.mpr ⟨hc, hpred⟩)
      refine ⟨e, ?_, hidx⟩
      rw [hstage]
      exact mem_sortByScoreDesc.mpr he
  · intro chunks ctx scoredText combined h1 h2
    have hstage : forceIncludeM1Stage chunks ctx scoredText combined =
        sortByScoreDesc
          (forceInclude (scoredText.filter (isModule1TptProse chunks)) combined 2) := by
      unfold forceIncludeM1Stage
      rw [h1, h2]
      simp
    refine ⟨by rw [hstage]; exact sortByScoreDesc_perm _, ?_⟩
    obtain ⟨added, heq, hlen, hprops, hexh⟩ :=
      forceInclude_append (scoredText.filter (isModule1TptProse chunks)) combined 2
    refine ⟨added, heq, hlen, ?_, ?_⟩
    · intro a ha
      obtain ⟨hc, hni⟩ := hprops a ha
      obtain ⟨hmem, hpred⟩ := List.mem_filter.mp hc
      exact ⟨hpred, hmem, hni⟩
    · intro hlt c hc hpred
      obtain ⟨e, he, hidx⟩ := hexh hlt c (List.mem_filter.mpr ⟨hc, hpred⟩)
      refine ⟨e, ?_, hidx⟩
      rw [hstage]
      exact mem_sortByScoreDesc.mpr he

/-- Witness for C5: a Module 4 DR prose candidate outside the merged list is
force-included, and likewise a Module 1 TPT candidate. -/
theorem force_include_c5_witness :
    (⟨0, (1 : ℚ)⟩ : Entry) ∈
      forceIncludeM4Stage
        [{ doc_id := "module4-treatment",
           section_path := "chapter 2 : drug-resistant tb treatment",
           content_type := "prose" }]
        { scope := some "treatment", isPediatric := true,
          hasDrugResistanceIntent := true, hasTptIntent := false }
        [⟨0, 1⟩] [] ∧
    (⟨0, (1 : ℚ)⟩ : Entry) ∈
      forceIncludeM1Stage
        [{ doc_id := "module1-tpt-2024",
           section_path := "tb preventive treatment",
           content_type := "prose" }]
        { scope := some "prevention", isPediatric := false,
          hasDrugResistanceIntent := false, hasTptIntent := true }
        [⟨0, 1⟩] [] := by
  constructor
  · have h := (force_include_c5.1
      [{ doc_id := "module4-treatment",
         section_path := "chapter 2 : drug-resistant tb treatment",
         content_type := "prose" }]
      { scope := some "treatment", isPediatric := true,
        hasDrugResistanceIntent := true, hasTptIntent := false }
      [⟨0, 1⟩] [] rfl rfl rfl).1
    exact h.mem_iff.mpr (by decide)
  · have h := (force_include_c5.2
      [{ doc_id := "module1-tpt-2024",
         section_path := "tb preventive treatment",
         content_type := "prose" }]
      { scope := some "prevention", isPediatric := false,
        hasDrugResistanceIntent := false, hasTptIntent := true }
      [⟨0, 1⟩] [] rfl rfl).1
    exact h.mem_iff.mpr (by decide)

/-! ## Enrichment error handling (claim C8) -/

lemma enrichChunkWithTable_base (store : String → Option (List RawRow))
    (c : Chunk) (options : TableOptions) :
    (enrichChunkWithTable store c options).base = c := by
  unfold enrichChunkWithTable
  dsimp only
  split
  · rfl
  · split <;> rfl

/-- The handler's success/failure status and the identity and score of every
returned result are independent of the table store: a failing attachment
read only suppresses the added table fields of the affected result. -/
lemma tbRagHandler_store_proj (s1 s2 : String → Option (List RawRow))
    (chunks : List Chunk) (embeddings : List (List ℚ)) (qEmbedding : List ℚ)
    (body : ReqBody) :
    (tbRagHandler s1 chunks embeddings qEmbedding body).map
      (fun resp => resp.results.map (fun r => (r.chunk_id, r.doc_id, r.score))) =
    (tbRagHandler s2 chunks embeddings qEmbedding body).map
      (fun resp => resp.results.map (fun r => (r.chunk_id, r.doc_id, r.score))) := by
  unfold tbRagHandler
  by_cases hq : jsTrim body.question = ""
  · simp [hq]
  · simp only [if_neg hq]
    by_cases hemp : (embeddings.isEmpty || chunks.isEmpty) = true
    · simp [hemp]
    · simp only [hemp, if_false, Bool.false_eq_true]
      by_cases hlen : chunks.length < embeddings.length
      · simp [hlen]
      · simp only [if_neg hlen, Except.map, List.map_map]
        congr 1
        apply List.map_congr_left
        intro e _
        simp [Function.comp, mkResult, enrichChunkWithTable_base]

/-- C8 (confirmed).  When a selected table chunk's attachment fails to load,
enrichment returns the chunk unchanged (no table fields added), and the
query completes normally: the set of returned results (their chunk ids,
document ids and scores) does not depend on the table store at all. -/
theorem enrich_failure_c8 (store : String → Option (List RawRow)) (chunk : Chunk)
    (options : TableOptions)
    (h1 : strToLower chunk.content_type = "table")
    (h2 : chunk.attachment_path ≠ "")
    (h3 : loadTableRows store chunk.attachment_path = none) :
    enrichChunkWithTable store chunk options = Enriched.ofChunk chunk ∧
    ∀ (store2 : String → Option (List RawRow)) (chunks : List Chunk)
      (embeddings : List (List ℚ)) (qEmbedding : List ℚ) (body : ReqBody),
      (tbRagHandler store chunks embeddings qEmbedding body).map
        (fun resp => resp.results.map (fun r => (r.chunk_id, r.doc_id, r.score))) =
      (tbRagHandler store2 chunks embeddings qEmbedding body).map
        (fun resp => resp.results.map (fun r => (r.chunk_id, r.doc_id, r.score))) := by
  constructor
  · unfold enrichChunkWithTable
    rw [h1, h3]
    simp [h2]
  · intro store2 chunks embeddings qEmbedding body
    exact tbRagHandler_store_proj store store2 chunks embeddings qEmbedding body

/-- Witness for C8: a table chunk whose attachment read fails is returned
unchanged by enrichment. -/
theorem enrich_failure_c8_witness :
    enrichChunkWithTable (fun _ => none)
      { content_type := "table", attachment_path := "tables/x.csv" } {} =
    Enriched.ofChunk { content_type := "table", attachment_path := "tables/x.csv" } :=
  (enrich_failure_c8 (fun _ => none)
    { content_type := "table", attachment_path := "tables/x.csv" } {}
    (by decide) (by decide) rfl).1

/-! ## Dosing-table fallback (claim C9) -/

lemma detect_dosing_caption_ne (chunk : Chunk) (logicalRows : List LogicalRow)
    (hsub : detectTableSubtype chunk logicalRows = "dosing")
    (hhead : getTableHeaders logicalRows = []) :
    chunk.caption ≠ "" := by
  intro hcap
  apply absurd hsub
  have h1 : jsHasAny (strToLower "") ["dose", "dosage", "dosing", "mg/kg",
      "mg/ day", "mg per kg", "weight band", "weight-band"] = false := by decide
  cases logicalRows with
  | nil =>
      simp only [detectTableSubtype, hcap]
      rw [h1]
      simp only [List.any_nil, Bool.or_self, Bool.false_eq_true, if_false]
      split_ifs <;> decide
  | cons r rest =>
      have hkeys : ∀ k ∈ lrKeys r, k = "_row_index" := by
        simpa [getTableHeaders] using hhead
      have hany : ((lrKeys r).map strToLower).any
          (fun h => jsHasAny h ["kg", "dose", "weight band", "weight-band"]) = false := by
        apply List.any_eq_false.mpr
        intro h hh
        obtain ⟨k, hk, rfl⟩ := List.mem_map.mp hh
        rw [hkeys k hk]
        decide
      simp only [detectTableSubtype, hcap]
      rw [h1, hany]
      simp only [Bool.or_self, Bool.false_eq_true, if_false]
      split_ifs <;> decide

/-- C9 (corrected).  A dosing-classified table with no weight-band-like
header renders exactly the generic renderer's text (also through the
`renderTable` dispatch), never an empty dosing-specific summary; the debug
note recording the fallback, however, is only present when the table has at
least one logical row and one header label — for a degenerate table the
early "(No rows found.)" return carries no note, which is the one deviation
from the claim as stated. -/
theorem dosing_fallback_c9 (chunk : Chunk) (logicalRows : List LogicalRow)
    (hsub : detectTableSubtype chunk logicalRows = "dosing")
    (hwb : weightBandKeysOf (getTableHeaders logicalRows) = []) :
    (renderDosingTable chunk logicalRows).text =
      (renderGenericTable chunk logicalRows).text ∧
    (∀ rawRows : List RawRow, (normalizeTableRows rawRows).2 = logicalRows →
      (renderTable chunk rawRows).tableText =
        (renderGenericTable chunk logicalRows).text) ∧
    (logicalRows ≠ [] → getTableHeaders logicalRows ≠ [] →
      (renderDosingTable chunk logicalRows).note =
        some "fallback_generic_no_weight_bands") := by
  have hmain : (renderDosingTable chunk logicalRows).text =
      (renderGenericTable chunk logicalRows).text ∧
      (logicalRows ≠ [] → getTableHeaders logicalRows ≠ [] →
        (renderDosingTable chunk logicalRows).note =
          some "fallback_generic_no_weight_bands") := by
    by_cases hempty : (logicalRows.isEmpty || (getTableHeaders logicalRows).isEmpty) = true
    · have hhead : getTableHeaders logicalRows = [] := by
        have h2 : logicalRows.isEmpty = true ∨
            (getTableHeaders logicalRows).isEmpty = true := by
          simpa only [Bool.or_eq_true] using hempty
        rcases h2 with h | h
        · rw [List.isEmpty_iff.mp h]
          rfl
        · exact List.isEmpty_iff.mp h
      have hcap := detect_dosing_caption_ne chunk logicalRows hsub hhead
      constructor
      · unfold renderDosingTable renderGenericTable
        rw [if_pos hempty, if_pos hempty]
        simp only [if_pos hcap]
      · intro hlr hh
        exact absurd hhead hh
    · constructor
      · unfold renderDosingTable
        rw [if_neg hempty]
        simp only [hwb, List.isEmpty_nil, if_true]
      · intro _ _
        unfold renderDosingTable
        rw [if_neg hempty]
        simp only [hwb, List.isEmpty_nil, if_true]
  refine ⟨hmain.1, ?_, hmain.2⟩
  intro rawRows hrw
  simp only [renderTable]
  rw [hrw, hsub]
  rw [if_neg (by decide : ¬("dosing" = ""))]
  rw [if_pos rfl]
  exact hmain.1

/-- Counterexample for C9 as stated: a dosing-classified table with no
logical rows (hence no weight-band-like header) renders without any debug
note, while the claim requires a fallback note. -/
theorem dosing_fallback_c9_counterexample :
    detectTableSubtype { caption := "Dosing" } [] = "dosing" ∧
    weightBandKeysOf (getTableHeaders ([] : List LogicalRow)) = [] ∧
    (renderDosingTable { caption := "Dosing" } []).note = none ∧
    (renderDosingTable { caption := "Dosing" } []).text =
      (renderGenericTable { caption := "Dosing" } []).text := by
  refine ⟨by decide, by decide, by decide, by decide⟩

/-- Witness for C9 (amended): a dosing table with rows but no weight-band
column falls back to the generic rendering with the debug note. -/
theorem dosing_fallback_c9_witness :
    (renderDosingTable { caption := "Dosing of isoniazid" }
        [[("Medicine", some "Isoniazid"), ("_row_index", some "2")]]).text =
      (renderGenericTable { caption := "Dosing of isoniazid" }
        [[("Medicine", some "Isoniazid"), ("_row_index", some "2")]]).text ∧
    (renderDosingTable { caption := "Dosing of isoniazid" }
        [[("Medicine", some "Isoniazid"), ("_row_index", some "2")]]).note =
      some "fallback_generic_no_weight_bands" := by
  have h := dosing_fallback_c9 { caption := "Dosing of isoniazid" }
    [[("Medicine", some "Isoniazid"), ("_row_index", some "2")]]
    (by decide) (by decide)
  exact ⟨h.1, h.2.2 (by decide) (by decide)⟩

/-! ## Index preservation and nonemptiness through the merge pipeline -/

lemma forall_index_sectionProximityStage {p : Nat → Prop} {chunks : List Chunk}
    {scoredText tables : List Entry} (h : ∀ e ∈ tables, p e.index) :
    ∀ e ∈ sectionProximityStage chunks scoredText tables, p e.index := by
  unfold sectionProximityStage
  exact forall_mem_sortByScoreDesc (forall_index_map
    (sectionProximityBoost_index chunks _ _) h)

lemma forall_index_stalePedsDrStage {p : Nat → Prop} {chunks : List Chunk}
    {ctx : QueryCtx} {b : Bool} {tables : List Entry}
    (h : ∀ e ∈ tables, p e.index) :
    ∀ e ∈ stalePedsDrStage chunks ctx b tables, p e.index := by
  unfold stalePedsDrStage
  split
  · exact forall_mem_sortByScoreDesc (forall_index_map
      (stalePedsDrPenalty_index chunks) h)
  · exact h

lemma forall_index_staleTptStage {p : Nat → Prop} {chunks : List Chunk}
    {ctx : QueryCtx} {b : Bool} {tables : List Entry}
    (h : ∀ e ∈ tables, p e.index) :
    ∀ e ∈ staleTptStage chunks ctx b tables, p e.index := by
  unfold staleTptStage
  split
  · exact forall_mem_sortByScoreDesc (forall_index_map
      (staleTptPenalty_index chunks) h)
  · exact h

lemma forall_index_forceIncludeM4Stage {p : Nat → Prop} {chunks : List Chunk}
    {ctx : QueryCtx} {scoredText combined : List Entry}
    (hc : ∀ e ∈ combined, p e.index) (hs : ∀ e ∈ scoredText, p e.index) :
    ∀ e ∈ forceIncludeM4Stage chunks ctx scoredText combined, p e.index := by
  unfold forceIncludeM4Stage
  split
  · intro e he
    rcases mem_forceInclude _ _ _ e (mem_sortByScoreDesc.mp he) with h | h
    · exact hc e h
    · exact hs e (List.mem_of_mem_filter h)
  · exact hc

lemma forall_index_forceIncludeM1Stage {p : Nat → Prop} {chunks : List Chunk}
    {ctx : QueryCtx} {scoredText combined : List Entry}
    (hc : ∀ e ∈ combined, p e.index) (hs : ∀ e ∈ scoredText, p e.index) :
    ∀ e ∈ forceIncludeM1Stage chunks ctx scoredText combined, p e.index := by
  unfold forceIncludeM1Stage
  split
  · intro e he
    rcases mem_forceInclude _ _ _ e (mem_sortByScoreDesc.mp he) with h | h
    · exact hc e h
    · exact hs e (List.mem_of_mem_filter h)
  · exact hc

lemma forall_index_scoredTextFinal {p : Nat → Prop} (chunks : List Chunk)
    (embeddings : List (List ℚ)) (q : List ℚ) (ctx : QueryCtx)
    (h : ∀ i ∈ indicesAfterScopeFallback chunks embeddings.length ctx.scope, p i) :
    ∀ e ∈ scoredTextFinal chunks embeddings q ctx, p e.index := by
  unfold scoredTextFinal
  apply forall_mem_sortByScoreDesc (p := fun e => p e.index)
  apply forall_index_map (p := p) (moduleBoostText_index ctx chunks)
  apply forall_mem_sortByScoreDesc (p := fun e => p e.index)
  intro e he
  obtain ⟨i, hi, rfl⟩ := List.mem_map.mp he
  exact h i (List.mem_of_mem_filter hi)

lemma forall_index_scoredTablesFinal {p : Nat → Prop} (chunks : List Chunk)
    (embeddings : List (List ℚ)) (q : List ℚ) (ctx : QueryCtx)
    (h : ∀ i ∈ indicesAfterScopeFallback chunks embeddings.length ctx.scope, p i) :
    ∀ e ∈ scoredTablesFinal chunks embeddings q ctx, p e.index := by
  unfold scoredTablesFinal
  apply forall_index_staleTptStage
  apply forall_index_stalePedsDrStage
  apply forall_index_sectionProximityStage
  apply forall_mem_sortByScoreDesc (p := fun e => p e.index)
  apply forall_index_map (p := p) (moduleBoostTable_index ctx chunks)
  apply forall_mem_sortByScoreDesc (p := fun e => p e.index)
  intro e he
  obtain ⟨i, hi, rfl⟩ := List.mem_map.mp he
  exact h i (List.mem_of_mem_filter hi)

lemma forall_index_mergedCandidates {p : Nat → Prop} (chunks : List Chunk)
    (embeddings : List (List ℚ)) (q : List ℚ) (ctx : QueryCtx)
    (h : ∀ i ∈ indicesAfterScopeFallback chunks embeddings.length ctx.scope, p i) :
    ∀ e ∈ mergedCandidates chunks embeddings q ctx, p e.index := by
  unfold mergedCandidates
  have hT := forall_index_scoredTextFinal chunks embeddings q ctx h
  have hB := forall_index_scoredTablesFinal chunks embeddings q ctx h
  apply forall_index_forceIncludeM1Stage ?_ hT
  apply forall_index_forceIncludeM4Stage ?_ hT
  apply forall_mem_sortByScoreDesc (p := fun e => p e.index)
  intro e he
  rcases List.mem_append.mp he with h2 | h2
  · exact hT e (List.mem_of_mem_take h2)
  · exact hB e (List.mem_of_mem_take h2)

lemma indicesAfterScopeFallback_sub (chunks : List Chunk) (embCount : Nat)
    (scope : Option String) :
    ∀ i ∈ indicesAfterScopeFallback chunks embCount scope, i < embCount := by
  intro i hi
  simp only [indicesAfterScopeFallback] at hi
  rw [← List.mem_range (n := embCount)]
  split at hi
  · exact hi
  · simp only [filterIndicesByScope] at hi
    split at hi
    · exact hi
    · split at hi
      · exact hi
      · exact List.mem_of_mem_filter hi

lemma indicesAfterScopeFallback_ne_nil (chunks : List Chunk) (embCount : Nat)
    (scope : Option String) (h : embCount ≠ 0) :
    indicesAfterScopeFallback chunks embCount scope ≠ [] := by
  simp only [indicesAfterScopeFallback]
  split
  · simp only [ne_eq, List.range_eq_nil]
    exact h
  · next h2 =>
      intro hnil
      exact h2 (by simp [hnil])

lemma sectionProximityStage_length (chunks : List Chunk)
    (scoredText tables : List Entry) :
    (sectionProximityStage chunks scoredText tables).length = tables.length := by
  unfold sectionProximityStage
  rw [length_sortByScoreDesc, List.length_map]

lemma stalePedsDrStage_length (chunks : List Chunk) (ctx : QueryCtx) (b : Bool)
    (tables : List Entry) :
    (stalePedsDrStage chunks ctx b tables).length = tables.length := by
  unfold stalePedsDrStage
  split
  · rw [length_sortByScoreDesc, List.length_map]
  · rfl

lemma staleTptStage_length (chunks : List Chunk) (ctx : QueryCtx) (b : Bool)
    (tables : List Entry) :
    (staleTptStage chunks ctx b tables).length = tables.length := by
  unfold staleTptStage
  split
  · rw [length_sortByScoreDesc, List.length_map]
  · rfl

lemma forceIncludeM4Stage_ne_nil (chunks : List Chunk) (ctx : QueryCtx)
    (scoredText combined : List Entry) (h : combined ≠ []) :
    forceIncludeM4Stage chunks ctx scoredText combined ≠ [] := by
  unfold forceIncludeM4Stage
  split
  · obtain ⟨added, heq, _, _, _⟩ :=
      forceInclude_append (scoredText.filter (isModule4DrProse chunks)) combined 2
    intro hnil
    have hlen := congrArg List.length hnil
    rw [length_sortByScoreDesc, heq] at hlen
    simp only [List.length_append, List.length_nil] at hlen
    exact h (List.length_eq_zero.mp (by omega))
  · exact h

lemma forceIncludeM1Stage_ne_nil (chunks : List Chunk) (ctx : QueryCtx)
    (scoredText combined : List Entry) (h : combined ≠ []) :
    forceIncludeM1Stage chunks ctx scoredText combined ≠ [] := by
  unfold forceIncludeM1Stage
  split
  · obtain ⟨added, heq, _, _, _⟩ :=
      forceInclude_append (scoredText.filter (isModule1TptProse chunks)) combined 2
    intro hnil
    have hlen := congrArg List.length hnil
    rw [length_sortByScoreDesc, heq] at hlen
    simp only [List.length_append, List.length_nil] at hlen
    exact h (List.length_eq_zero.mp (by omega))
  · exact h

lemma scoredTextFinal_length (chunks : List Chunk) (embeddings : List (List ℚ))
    (q : List ℚ) (ctx : QueryCtx) :
    (scoredTextFinal chunks embeddings q ctx).length =
      ((indicesAfterScopeFallback chunks embeddings.length ctx.scope).filter
        (fun i => (strToLower (chunkAt chunks i).content_type) ≠ "table")).length := by
  unfold scoredTextFinal
  rw [length_sortByScoreDesc, List.length_map, length_sortByScoreDesc, List.length_map]

lemma scoredTablesFinal_length (chunks : List Chunk) (embeddings : List (List ℚ))
    (q : List ℚ) (ctx : QueryCtx) :
    (scoredTablesFinal chunks embeddings q ctx).length =
      ((indicesAfterScopeFallback chunks embeddings.length ctx.scope).filter
        (fun i => (strToLower (chunkAt chunks i).content_type) = "table")).length := by
  unfold scoredTablesFinal
  rw [staleTptStage_length, stalePedsDrStage_length, sectionProximityStage_length,
    length_sortByScoreDesc, List.length_map, length_sortByScoreDesc, List.length_map]

lemma mergedCandidates_ne_nil (chunks : List Chunk) (embeddings : List (List ℚ))
    (q : List ℚ) (ctx : QueryCtx) (hne : embeddings ≠ []) :
    mergedCandidates chunks embeddings q ctx ≠ [] := by
  unfold mergedCandidates
  apply forceIncludeM1Stage_ne_nil
  apply forceIncludeM4Stage_ne_nil
  have hidx : indicesAfterScopeFallback chunks embeddings.length ctx.scope ≠ [] := by
    apply indicesAfterScopeFallback_ne_nil
    intro h0
    exact hne (List.length_eq_zero.mp h0)
  obtain ⟨i, hi⟩ := List.exists_mem_of_ne_nil _ hidx
  have hch : 0 < (scoredTextFinal chunks embeddings q ctx).length ∨
      0 < (scoredTablesFinal chunks embeddings q ctx).length := by
    by_cases hp : (strToLower (chunkAt chunks i).content_type) = "table"
    · right
      rw [scoredTablesFinal_length]
      apply List.length_pos.mpr
      intro h0
      have := List.filter_eq_nil.mp h0 i hi
      simp [hp] at this
    · left
      rw [scoredTextFinal_length]
      apply List.length_pos.mpr
      intro h0
      have := List.filter_eq_nil.mp h0 i hi
      simp [hp] at this
  intro hnil
  have hlen := congrArg List.length hnil
  rw [length_sortByScoreDesc, List.length_append] at hlen
  simp only [List.length_take, List.length_nil] at hlen
  rcases hch with h | h <;> omega

lemma rankedCandidates_ids (chunks : List Chunk) (embeddings : List (List ℚ))
    (q : List ℚ) (ctx : QueryCtx) :
    (∀ e ∈ rankedCandidates chunks embeddings q ctx,
      entryChunkId chunks e ≠ "") ∧
    (rankedCandidates chunks embeddings q ctx).Pairwise
      (fun a b => entryChunkId chunks a ≠ entryChunkId chunks b) := by
  unfold rankedCandidates
  obtain ⟨h1, h2⟩ := dedup_strong chunks (mergedCandidates chunks embeddings q ctx) []
  exact ⟨fun e he => (h1 e he).1, h2⟩

lemma rankedCandidates_ne_nil (chunks : List Chunk) (embeddings : List (List ℚ))
    (q : List ℚ) (ctx : QueryCtx) (hne : embeddings ≠ [])
    (hlen : embeddings.length ≤ chunks.length)
    (hids : ∀ c ∈ chunks, c.chunk_id ≠ "") :
    rankedCandidates chunks embeddings q ctx ≠ [] := by
  unfold rankedCandidates
  apply dedup_ne_nil
  · exact mergedCandidates_ne_nil chunks embeddings q ctx hne
  · intro e he
    have hidx : e.index < embeddings.length := by
      refine forall_index_mergedCandidates (p := fun i => i < embeddings.length)
        chunks embeddings q ctx ?_ e he
      exact indicesAfterScopeFallback_sub chunks embeddings.length ctx.scope
    have hlt : e.index < chunks.length := lt_of_lt_of_le hidx hlen
    unfold entryChunkId chunkAt
    rw [List.getD_eq_getElem?_getD, List.getElem?_eq_getElem hlt, Option.getD_some]
    exact hids _ (List.getElem_mem hlt)

lemma chunkAt_blank (chunks : List Chunk)
    (hall : ∀ c ∈ chunks, c.chunk_id = "") (i : Nat) :
    (chunkAt chunks i).chunk_id = "" := by
  unfold chunkAt
  rcases Nat.lt_or_ge i chunks.length with h | h
  · rw [List.getD_eq_getElem?_getD, List.getElem?_eq_getElem h, Option.getD_some]
    exact hall _ (List.getElem_mem h)
  · rw [List.getD_eq_getElem?_getD, List.getElem?_eq_none h, Option.getD_none]

/-! ## Silent discard of candidates without a chunk id (claim C10) -/

/-- C10 (confirmed).  During deduplication every merged candidate whose
chunk has a missing (empty) `chunk_id` is silently discarded: every result
of a successful query has a non-empty chunk id, and if every corpus chunk
lacks a chunk id the results array is empty. -/
theorem dedup_discard_c10 (store : String → Option (List RawRow))
    (chunks : List Chunk) (embeddings : List (List ℚ)) (qEmbedding : List ℚ)
    (body : ReqBody) (resp : RagResponse)
    (h : tbRagHandler store chunks embeddings qEmbedding body = Except.ok resp) :
    (∀ r ∈ resp.results, r.chunk_id ≠ "") ∧
    ((∀ c ∈ chunks, c.chunk_id = "") → resp.results = []) := by
  simp only [tbRagHandler] at h
  by_cases hq : jsTrim body.question = ""
  · rw [if_pos hq] at h
    exact absurd h (by simp)
  rw [if_neg hq] at h
  by_cases hemp : (embeddings.isEmpty || chunks.isEmpty) = true
  · rw [if_pos hemp] at h
    exact absurd h (by simp)
  rw [if_neg hemp] at h
  by_cases hlen : chunks.length < embeddings.length
  · rw [if_pos hlen] at h
    exact absurd h (by simp)
  rw [if_neg hlen] at h
  injection h with h2
  subst h2
  constructor
  · intro r hr
    simp only [List.mem_map] at hr
    obtain ⟨e, he, rfl⟩ := hr
    have he2 := List.mem_of_mem_take he
    have hid := (rankedCandidates_ids chunks embeddings qEmbedding _).1 e he2
    simpa [mkResult, enrichChunkWithTable_base, entryChunkId] using hid
  · intro hall
    have hnil : rankedCandidates chunks embeddings qEmbedding
        { scope := match body.scope with
            | some s => if s ≠ "" then some s
                else inferScopeFromQuestion body.question (inferIntentFlags body.question)
            | none => inferScopeFromQuestion body.question (inferIntentFlags body.question)
          isPediatric := (inferIntentFlags body.question).contains "special_populations"
          hasDrugResistanceIntent := (inferIntentFlags body.question).contains "drug_resistance"
          hasTptIntent := (inferIntentFlags body.question).contains "tpt" } = [] := by
      unfold rankedCandidates
      apply dedup_all_blank
      intro e _
      unfold entryChunkId
      exact chunkAt_blank chunks hall e.index
    simp only [hnil, List.take_nil, List.map_nil]

/-- Witness for C10: a one-chunk corpus without a chunk id yields a
successful response with an empty results array. -/
theorem dedup_discard_c10_witness :
    (tbRagHandler (fun _ => none) [{ chunk_id := "" }] [[1]] [1]
        { question := "q" } =
      Except.ok { question := "q", top_k := 1, scope := none, results := [] }) ∧
    ({ question := "q", top_k := 1, scope := none,
       results := [] } : RagResponse).results = [] := by
  constructor
  · rfl
  · exact (dedup_discard_c10 (fun _ => none) [{ chunk_id := "" }] [[1]] [1]
      { question := "q" }
      { question := "q", top_k := 1, scope := none, results := [] }
      (by rfl)).2 (by decide)

/-! ## Result-count bounds and distinctness (claim C1) -/

/-- C1 (corrected).  For every successfully handled query with a requested
`top_k` of at least one, the number of results is at most
`min(top_k, 8, corpus_size)` and no two results share a chunk id; the count
is strictly positive provided every corpus chunk carries a non-empty
`chunk_id` — without that proviso the response can be empty (see the
counterexample), which is the one correction to the claim as stated. -/
theorem results_bounds_c1 (store : String → Option (List RawRow))
    (chunks : List Chunk) (embeddings : List (List ℚ)) (qEmbedding : List ℚ)
    (body : ReqBody) (resp : RagResponse)
    (h : tbRagHandler store chunks embeddings qEmbedding body = Except.ok resp)
    (htop : 1 ≤ body.top_k.getD 8)
    (hids : ∀ c ∈ chunks, c.chunk_id ≠ "") :
    0 < resp.results.length ∧
    (resp.results.length : Int) ≤
      min (body.top_k.getD 8) (min 8 (embeddings.length : Int)) ∧
    resp.results.Pairwise (fun r1 r2 => r1.chunk_id ≠ r2.chunk_id) := by
  simp only [tbRagHandler] at h
  by_cases hq : jsTrim body.question = ""
  · rw [if_pos hq] at h
    exact absurd h (by simp)
  rw [if_neg hq] at h
  by_cases hemp : (embeddings.isEmpty || chunks.isEmpty) = true
  · rw [if_pos hemp] at h
    exact absurd h (by simp)
  rw [if_neg hemp] at h
  by_cases hlen : chunks.length < embeddings.length
  · rw [if_pos hlen] at h
    exact absurd h (by simp)
  rw [if_neg hlen] at h
  injection h with h2
  subst h2
  have hne : embeddings ≠ [] := by
    intro hnil
    exact hemp (by simp [hnil])
  have hlen2 : embeddings.length ≤ chunks.length := Nat.le_of_not_lt hlen
  have hembpos : (1 : Int) ≤ (embeddings.length : Int) := by
    have : 0 < embeddings.length := List.length_pos.mpr hne
    exact_mod_cast this
  have hKpos : (1 : Int) ≤
      min (max 1 (min (body.top_k.getD 8) 8)) (embeddings.length : Int) := by
    omega
  set ctx2 : QueryCtx :=
    { scope := match body.scope with
        | some s => if s ≠ "" then some s
            else inferScopeFromQuestion body.question (inferIntentFlags body.question)
        | none => inferScopeFromQuestion body.question (inferIntentFlags body.question)
      isPediatric := (inferIntentFlags body.question).contains "special_populations"
      hasDrugResistanceIntent := (inferIntentFlags body.question).contains "drug_resistance"
      hasTptIntent := (inferIntentFlags body.question).contains "tpt" } with hctx
  have hrankedpos : 0 < (rankedCandidates chunks embeddings qEmbedding ctx2).length :=
    List.length_pos.mpr
      (rankedCandidates_ne_nil chunks embeddings qEmbedding ctx2 hne hlen2 hids)
  refine ⟨?_, ?_, ?_⟩
  · dsimp only
    simp only [List.length_map, List.length_take]
    omega
  · dsimp only
    simp only [List.length_map, List.length_take]
    omega
  · dsimp only
    rw [List.pairwise_map]
    have hpw := (rankedCandidates_ids chunks embeddings qEmbedding ctx2).2
    refine List.Pairwise.imp ?_ (hpw.sublist (List.take_sublist _ _))
    intro a b hab
    simpa [mkResult, enrichChunkWithTable_base, entryChunkId] using hab

/-- Counterexample for C1 as stated: a successfully handled query over a
non-empty corpus whose only chunk lacks a `chunk_id` returns zero results,
violating `0 < returned_count`. -/
theorem results_bounds_c1_counterexample :
    tbRagHandler (fun _ => none) [{ chunk_id := "" }] [[1]] [1]
      { question := "q" } =
    Except.ok { question := "q", top_k := 1, scope := none, results := [] } := by
  rfl

/-- Witness for C1 (amended) at a concrete successful query. -/
theorem results_bounds_c1_witness :
    0 < c1SampleResponse.results.length ∧
    (c1SampleResponse.results.length : Int) ≤
      min ((({ question := "q" } : ReqBody)).top_k.getD 8)
        (min 8 (([[(1 : ℚ)]] : List (List ℚ)).length : Int)) := by
  have h := results_bounds_c1 (fun _ => none) [{ chunk_id := "c" }] [[1]] [1]
    { question := "q" } c1SampleResponse (by rfl) (by decide) (by decide)
  exact ⟨h.1, h.2.1⟩

end TbRag
